import Mathlib

/-!
# ofxNiTE2: user tracker, user record and joint hierarchy

A shallow embedding of `src/ofxNiTE2.cpp`.

* Coordinates and the activity scalar are C++ `float`s in the source.  They are
  embedded as rationals: the only operations the embedded code performs on
  them are negation, subtraction, addition and multiplication by `0.1`.
* `User::Ref` is a shared pointer.  The embedding keeps the records in an
  explicit store (`UserTracker.heap`) and represents a `User::Ref` by the index
  of its record in that store, so that "the same record" is a statement about
  indices.
* Calls that leave the class (event notification, middleware requests, pose
  updates of a record) are additionally written to a trace of `Action`s in the
  order in which the source performs them.
* The middleware and openFrameworks services the source calls
  (`ofVec3f::distance`, `convertJointCoordinatesToDepth`,
  `ofGetElapsedTimeMillis`, the `User` constructor) are parameters, collected
  in `Collab`.
-/

namespace ofxNiTE2

/-! ## Middleware data (NiTE) -/

/-- The user identity of the middleware, `nite::UserId`. -/
abbrev UserId := Int

/-- The joint enumeration of the middleware `nite::JointType`, in the order of its numeric values. -/
inductive JointType
  | JOINT_HEAD
  | JOINT_NECK
  | JOINT_LEFT_SHOULDER
  | JOINT_RIGHT_SHOULDER
  | JOINT_LEFT_ELBOW
  | JOINT_RIGHT_ELBOW
  | JOINT_LEFT_HAND
  | JOINT_RIGHT_HAND
  | JOINT_TORSO
  | JOINT_LEFT_HIP
  | JOINT_RIGHT_HIP
  | JOINT_LEFT_KNEE
  | JOINT_RIGHT_KNEE
  | JOINT_LEFT_FOOT
  | JOINT_RIGHT_FOOT
  deriving DecidableEq, Repr, Fintype

/-- Number of joint types, the constant `NITE_JOINT_COUNT`. -/
def NITE_JOINT_COUNT : Nat := 15

/-- Numeric value of a joint type, used as the index into `joints`. -/
def JointType.toNat : JointType → Nat
  | .JOINT_HEAD => 0
  | .JOINT_NECK => 1
  | .JOINT_LEFT_SHOULDER => 2
  | .JOINT_RIGHT_SHOULDER => 3
  | .JOINT_LEFT_ELBOW => 4
  | .JOINT_RIGHT_ELBOW => 5
  | .JOINT_LEFT_HAND => 6
  | .JOINT_RIGHT_HAND => 7
  | .JOINT_TORSO => 8
  | .JOINT_LEFT_HIP => 9
  | .JOINT_RIGHT_HIP => 10
  | .JOINT_LEFT_KNEE => 11
  | .JOINT_RIGHT_KNEE => 12
  | .JOINT_LEFT_FOOT => 13
  | .JOINT_RIGHT_FOOT => 14

/-- The skeleton state enumeration of the middleware `nite::SkeletonState`. -/
inductive SkeletonState
  | SKELETON_NONE
  | SKELETON_CALIBRATING
  | SKELETON_TRACKED
  | SKELETON_CALIBRATION_ERROR_NOT_IN_POSE
  | SKELETON_CALIBRATION_ERROR_HANDS
  | SKELETON_CALIBRATION_ERROR_HEAD
  | SKELETON_CALIBRATION_ERROR_LEGS
  | SKELETON_CALIBRATION_ERROR_TORSO
  deriving DecidableEq, Repr

/-- A sensor-space point, `nite::Point3f`. -/
structure Point3f where
  x : ℚ
  y : ℚ
  z : ℚ
  deriving DecidableEq, Repr

/-- A raw orientation, `nite::Quaternion`. -/
structure Quaternion where
  x : ℚ
  y : ℚ
  z : ℚ
  w : ℚ
  deriving DecidableEq, Repr

/-- One raw joint of a detection, `nite::SkeletonJoint`. -/
structure SkeletonJoint where
  position : Point3f
  positionConfidence : ℚ
  orientation : Quaternion
  orientationConfidence : ℚ
  deriving DecidableEq, Repr

/-- The default-constructed raw joint: everything zero. -/
def SkeletonJoint.zero : SkeletonJoint :=
  { position := ⟨0, 0, 0⟩, positionConfidence := 0, orientation := ⟨0, 0, 0, 0⟩,
    orientationConfidence := 0 }

/-- The skeleton of a detection, `nite::Skeleton`: raw joints indexed by joint type, and a state. -/
structure Skeleton where
  joints : List SkeletonJoint
  state : SkeletonState
  deriving DecidableEq, Repr

/-- The accessor `nite::Skeleton::getJoint`. -/
def Skeleton.getJoint (sk : Skeleton) (t : Nat) : SkeletonJoint :=
  sk.joints.getD t SkeletonJoint.zero

/-- One detection of a frame, `nite::UserData`, with the accessors the source reads. -/
structure UserData where
  id : UserId
  isNew : Bool
  isLost : Bool
  isVisible : Bool
  skeleton : Skeleton
  centerOfMass : Point3f
  deriving DecidableEq, Repr

/-! ## openFrameworks value types -/

/-- A 3D vector, `ofVec3f`. -/
structure ofVec3f where
  x : ℚ
  y : ℚ
  z : ℚ
  deriving DecidableEq, Repr

/-- A 2D vector, `ofVec2f`. -/
structure ofVec2f where
  x : ℚ
  y : ℚ
  deriving DecidableEq, Repr

/-- A quaternion built with the constructor `ofQuaternion(x, y, z, w)`. -/
structure ofQuaternion where
  x : ℚ
  y : ℚ
  z : ℚ
  w : ℚ
  deriving DecidableEq, Repr

/-! ## Joint -/

/-- A joint of a user record.  `joint` is the raw copy; `globalPosition` and
`globalOrientation` are the values last handed to `ofNode::setGlobalPosition`
and `ofNode::setGlobalOrientation`; `parent` is the joint type of the node given
to `ofNode::setParent` (an index into the owning `joints` vector). -/
structure Joint where
  joint : SkeletonJoint
  globalPosition : ofVec3f
  globalOrientation : ofQuaternion
  parent : Option JointType
  deriving DecidableEq, Repr

/-- A default-constructed joint: no parent, position at the origin, identity orientation. -/
def Joint.default : Joint :=
  { joint := SkeletonJoint.zero, globalPosition := ⟨0, 0, 0⟩,
    globalOrientation := ⟨0, 0, 0, 1⟩, parent := none }

/-- The method `Joint::updateJointData` (source lines 516-525). -/
def Joint.updateJointData (j : Joint) (data : SkeletonJoint) : Joint :=
  let pos := data.position
  let rot := data.orientation
  { j with
    joint := data
    globalOrientation := ⟨-rot.x, -rot.y, rot.z, rot.w⟩
    globalPosition := ⟨pos.x, pos.y, -pos.z⟩ }

/-- The position flip used by the source for joints and the center of mass: `(x, y, z) ↦ (x, y, -z)`. -/
def flipZ (p : ofVec3f) : ofVec3f := ⟨p.x, p.y, -p.z⟩

/-! ## User -/

/-- The user record, class `User`. -/
structure User where
  userdata : UserData
  joints : List Joint
  status_string : String
  center_of_mass : ofVec3f
  center_of_bone : ofVec3f
  activity : ℚ
  head : ofVec2f
  neck : ofVec2f
  leftShoulder : ofVec2f
  rightShoulder : ofVec2f
  leftElbow : ofVec2f
  rightElbow : ofVec2f
  leftHand : ofVec2f
  rightHand : ofVec2f
  torso : ofVec2f
  leftHip : ofVec2f
  rightHip : ofVec2f
  leftKnee : ofVec2f
  rightKnee : ofVec2f
  leftFoot : ofVec2f
  rightFoot : ofVec2f
  deriving DecidableEq, Repr

/-- Services the source calls but does not define. -/
structure Collab where
  /-- The function `ofVec3f::distance`. -/
  distance : ofVec3f → ofVec3f → ℚ
  /-- The middleware call `nite::UserTracker::convertJointCoordinatesToDepth`. -/
  convertJointCoordinatesToDepth : ℚ → ℚ → ℚ → ofVec2f
  /-- The record built by `new User`. -/
  freshUser : User
  /-- The reading of `ofGetElapsedTimeMillis` during the tick. -/
  now : Nat

/-- The vector operation `joints.resize(n)`: keep the first `n` joints, pad with default joints. -/
def resizeJoints (js : List Joint) (n : Nat) : List Joint :=
  js.take n ++ List.replicate (n - js.length) Joint.default

/-- Replace the element at index `i` by its image under `f` (no effect when `i` is out of range). -/
def modifyAt {α : Type} (l : List α) (i : Nat) (f : α → α) : List α :=
  match l[i]? with
  | some a => l.set i (f a)
  | none => l

/-- The macro `BIND(parent, child)`, i.e. `joints[child].setParent(joints[parent])`. -/
def BIND (parent child : JointType) (js : List Joint) : List Joint :=
  modifyAt js child.toNat (fun j => { j with parent := some parent })

/-- The method `User::buildSkeleton` (source lines 436-465). -/
def User.buildSkeleton (u : User) : User :=
  let js0 := resizeJoints u.joints NITE_JOINT_COUNT
  let js1 := BIND .JOINT_TORSO .JOINT_NECK js0
  let js2 := BIND .JOINT_NECK .JOINT_HEAD js1
  let js3 := BIND .JOINT_TORSO .JOINT_LEFT_SHOULDER js2
  let js4 := BIND .JOINT_LEFT_SHOULDER .JOINT_LEFT_ELBOW js3
  let js5 := BIND .JOINT_LEFT_ELBOW .JOINT_LEFT_HAND js4
  let js6 := BIND .JOINT_TORSO .JOINT_RIGHT_SHOULDER js5
  let js7 := BIND .JOINT_RIGHT_SHOULDER .JOINT_RIGHT_ELBOW js6
  let js8 := BIND .JOINT_RIGHT_ELBOW .JOINT_RIGHT_HAND js7
  let js9 := BIND .JOINT_TORSO .JOINT_LEFT_HIP js8
  let js10 := BIND .JOINT_LEFT_HIP .JOINT_LEFT_KNEE js9
  let js11 := BIND .JOINT_LEFT_KNEE .JOINT_LEFT_FOOT js10
  let js12 := BIND .JOINT_TORSO .JOINT_RIGHT_HIP js11
  let js13 := BIND .JOINT_RIGHT_HIP .JOINT_RIGHT_KNEE js12
  let js14 := BIND .JOINT_RIGHT_KNEE .JOINT_RIGHT_FOOT js13
  { u with joints := js14 }

/-- The parent of the joint of type `t` in a record, `joints[t].getParent()`. -/
def User.parentOf (u : User) (t : JointType) : Option JointType :=
  (u.joints.getD t.toNat Joint.default).parent

/-- The joint reached from `t` by following `parent` exactly `n` times, if the chain is that long. -/
def ancestor (parent : JointType → Option JointType) : Nat → JointType → Option JointType
  | 0, t => some t
  | n + 1, t => (ancestor parent n t).bind parent

/-- The message the status string gets for a skeleton state (the `switch` of source lines 284-364). -/
def stateMessage : SkeletonState → String
  | .SKELETON_NONE => "Stopped tracking."
  | .SKELETON_CALIBRATING => "Calibrating..."
  | .SKELETON_TRACKED => "Tracking!"
  | .SKELETON_CALIBRATION_ERROR_NOT_IN_POSE => "Calibration Failed... :-|"
  | .SKELETON_CALIBRATION_ERROR_HANDS => "Calibration Failed... :-|"
  | .SKELETON_CALIBRATION_ERROR_LEGS => "Calibration Failed... :-|"
  | .SKELETON_CALIBRATION_ERROR_HEAD => "Calibration Failed... :-|"
  | .SKELETON_CALIBRATION_ERROR_TORSO => "Calibration Failed... :-|"

/-- The text written to the string stream in `User::updateUserData` (source lines 279-366). -/
def statusString (data : UserData) : String :=
  "[" ++ toString data.id ++ "]" ++ "\n"
    ++ (if data.isVisible then "Visible" else "Out of Scene") ++ "\n"
    ++ stateMessage data.skeleton.state

/-- The loop of source lines 272-276: every joint takes the raw joint of its index. -/
def updateJoints (js : List Joint) (data : UserData) : List Joint :=
  (List.range NITE_JOINT_COUNT).foldl
    (fun acc i => modifyAt acc i (fun j => j.updateJointData (data.skeleton.getJoint i))) js

/-- Depth-image coordinates of the raw joint `t` of a detection. -/
def toDepth (env : Collab) (data : UserData) (t : JointType) : ofVec2f :=
  let joint := data.skeleton.getJoint t.toNat
  env.convertJointCoordinatesToDepth joint.position.x joint.position.y joint.position.z

/-- The 2D joint fields after the `SKELETON_TRACKED` case (source lines 293-355);
they are left alone in every other state. -/
def updateDepthJoints (env : Collab) (u : User) (data : UserData) : User :=
  if data.skeleton.state = .SKELETON_TRACKED then
    { u with
      head := toDepth env data .JOINT_HEAD
      neck := toDepth env data .JOINT_NECK
      leftShoulder := toDepth env data .JOINT_LEFT_SHOULDER
      rightShoulder := toDepth env data .JOINT_RIGHT_SHOULDER
      leftElbow := toDepth env data .JOINT_LEFT_ELBOW
      rightElbow := toDepth env data .JOINT_RIGHT_ELBOW
      leftHand := toDepth env data .JOINT_LEFT_HAND
      rightHand := toDepth env data .JOINT_RIGHT_HAND
      torso := toDepth env data .JOINT_TORSO
      leftHip := toDepth env data .JOINT_LEFT_HIP
      rightHip := toDepth env data .JOINT_RIGHT_HIP
      leftKnee := toDepth env data .JOINT_LEFT_KNEE
      rightKnee := toDepth env data .JOINT_RIGHT_KNEE
      leftFoot := toDepth env data .JOINT_LEFT_FOOT
      rightFoot := toDepth env data .JOINT_RIGHT_FOOT }
  else u

/-- The smoothing assignment of source line 372, `activity += (d - activity) * 0.1`,
for a torso displacement `d`. -/
def activityStep (d activity : ℚ) : ℚ :=
  activity + (d - activity) * (1 / 10)

/-- The method `User::updateUserData` (source lines 268-374).  The torso is the root
of the hierarchy, so its `getPosition()` is the global position just set. -/
def User.updateUserData (env : Collab) (u : User) (data : UserData) : User :=
  let u1 := { u with userdata := data, joints := updateJoints u.joints data }
  let u2 := updateDepthJoints env u1 data
  let u3 := { u2 with status_string := statusString data }
  let pos := u3.userdata.centerOfMass
  let u4 := { u3 with center_of_mass := ⟨pos.x, pos.y, -pos.z⟩ }
  let _torso := u4.joints.getD JointType.JOINT_TORSO.toNat Joint.default
  { u4 with
    activity := activityStep (env.distance _torso.globalPosition u4.center_of_bone) u4.activity
    center_of_bone := _torso.globalPosition }

/-- The parent table the `BIND` calls of `buildSkeleton` are shown to produce
(`parentOf_buildSkeleton`). -/
def boundParent : JointType → Option JointType
  | .JOINT_HEAD => some .JOINT_NECK
  | .JOINT_NECK => some .JOINT_TORSO
  | .JOINT_LEFT_SHOULDER => some .JOINT_TORSO
  | .JOINT_RIGHT_SHOULDER => some .JOINT_TORSO
  | .JOINT_LEFT_ELBOW => some .JOINT_LEFT_SHOULDER
  | .JOINT_RIGHT_ELBOW => some .JOINT_RIGHT_SHOULDER
  | .JOINT_LEFT_HAND => some .JOINT_LEFT_ELBOW
  | .JOINT_RIGHT_HAND => some .JOINT_RIGHT_ELBOW
  | .JOINT_TORSO => none
  | .JOINT_LEFT_HIP => some .JOINT_TORSO
  | .JOINT_RIGHT_HIP => some .JOINT_TORSO
  | .JOINT_LEFT_KNEE => some .JOINT_LEFT_HIP
  | .JOINT_RIGHT_KNEE => some .JOINT_RIGHT_HIP
  | .JOINT_LEFT_FOOT => some .JOINT_LEFT_KNEE
  | .JOINT_RIGHT_FOOT => some .JOINT_RIGHT_KNEE

/-- Constant-velocity input for a record `u` and a sequence of detections: at every
pose update the torso position the update stores is at distance `d` from the
previous one, `center_of_bone`. -/
def constantVelocity (env : Collab) (d : ℚ) : User → List UserData → Prop
  | _, [] => True
  | u, x :: xs =>
    env.distance (u.updateUserData env x).center_of_bone u.center_of_bone = d
      ∧ constantVelocity env d (u.updateUserData env x) xs

/-! ## UserTracker -/

/-- A shared pointer `User::Ref`: the index of the record in `UserTracker.heap`. -/
abbrev UserRef := Nat

/-- The container `map<nite::UserId, User::Ref>`: entries in ascending key order. -/
abbrev UserMap := List (UserId × UserRef)

/-- The lookup `users.find(k)`: the mapped pointer, or `none` for `users.end()`. -/
def mapFind (k : UserId) : UserMap → Option UserRef
  | [] => none
  | (k1, v1) :: rest => if k1 = k then some v1 else mapFind k rest

/-- The assignment `users[k] = v`: replace the entry of `k`, or insert one in key order. -/
def mapAssign (k : UserId) (v : UserRef) : UserMap → UserMap
  | [] => [(k, v)]
  | (k1, v1) :: rest =>
    if k < k1 then (k, v) :: (k1, v1) :: rest
    else if k = k1 then (k, v) :: rest
    else (k1, v1) :: mapAssign k v rest

/-- The removal `users.erase(k)`. -/
def mapErase (k : UserId) : UserMap → UserMap
  | [] => []
  | (k1, v1) :: rest => if k1 = k then mapErase k rest else (k1, v1) :: mapErase k rest

/-- Number of entries the mapping holds for `k`. -/
def mapCount (k : UserId) : UserMap → Nat
  | [] => 0
  | (k1, _) :: rest => (if k1 = k then 1 else 0) + mapCount k rest

/-- The ordering invariant of `std::map`: keys strictly ascending, hence unique. -/
def mapOrdered (m : UserMap) : Prop :=
  List.Pairwise (fun p q => p.1 < q.1) m

/-- The state of `UserTracker` that `onNewFrame` and `onUpdate` read and write.
The field `heap` is the store of the records behind the shared pointers. -/
structure UserTracker where
  users : UserMap
  heap : List User
  users_data : List UserData
  users_arr : List UserRef
  bTrackOutOfFrame : Bool
  bShowDelta : Bool
  startTrackTime : Nat
  deriving DecidableEq, Repr

/-- What leaves the tracker during a tick, in the order of the calls.  An event
carries the identity of the detection that caused it, the pointer passed to the
listeners, the record behind the pointer at that moment and the live mapping at
that moment. -/
inductive Action
  | newUser (id : UserId) (ref : UserRef) (record : Option User) (users : UserMap)
  | lostUser (id : UserId) (ref : UserRef) (record : Option User) (users : UserMap)
  | startSkeletonTracking (id : UserId)
  | stopSkeletonTracking (id : UserId)
  | updateUserData (ref : UserRef) (data : UserData)
  deriving DecidableEq, Repr

/-- Source lines 227-237: skip when no record was resolved, otherwise update the
pose, append to `users_arr` and, for a detection flagged new, notify `newUser`. -/
def onUpdateResolved (env : Collab) (s : UserTracker) (user : UserData)
    (user_ptr : Option UserRef) (log : List Action) : UserTracker × List Action :=
  match user_ptr with
  | none => (s, log)
  | some p =>
    let s1 := { s with
      heap := modifyAt s.heap p (fun u => u.updateUserData env user)
      users_arr := s.users_arr ++ [p] }
    let log1 := log ++ [Action.updateUserData p user]
    if user.isNew then
      (s1, log1 ++ [Action.newUser user.id p s1.heap[p]? s1.users])
    else
      (s1, log1)

/-- The body of the loop of `UserTracker::onUpdate` for one detection (source lines 187-237). -/
def onUpdateBody (env : Collab) (s : UserTracker) (user : UserData) :
    UserTracker × List Action :=
  if user.isNew then
    let user_ptr := s.heap.length
    let s1 := { s with
      heap := s.heap ++ [env.freshUser]
      users := mapAssign user.id user_ptr s.users
      startTrackTime := env.now
      bShowDelta := true }
    onUpdateResolved env s1 user (some user_ptr) [Action.startSkeletonTracking user.id]
  else
    match mapFind user.id s.users with
    | some existing =>
      if user.isLost || (!user.isVisible && !s.bTrackOutOfFrame) then
        ({ s with users := mapErase user.id s.users },
          [Action.lostUser user.id existing s.heap[existing]? s.users,
           Action.stopSkeletonTracking user.id])
      else
        let s1 :=
          if user.skeleton.state = .SKELETON_TRACKED && s.bShowDelta then
            { s with bShowDelta := false }
          else s
        onUpdateResolved env s1 user (some existing) []
    | none => onUpdateResolved env s user none []

/-- The loop `for (int i = 0; i < users_data.size(); i++)` of `onUpdate`, with the
number of remaining iterations as fuel. -/
def onUpdateLoop (env : Collab) : Nat → Nat → UserTracker × List Action → UserTracker × List Action
  | 0, _, acc => acc
  | fuel + 1, i, acc =>
    match acc.1.users_data[i]? with
    | some user =>
      let r := onUpdateBody env acc.1 user
      onUpdateLoop env fuel (i + 1) (r.1, acc.2 ++ r.2)
    | none => acc

/-- The method `UserTracker::onUpdate` (source lines 177-244): one tick. -/
def onUpdate (env : Collab) (s : UserTracker) : UserTracker × List Action :=
  if s.users_data ≠ [] then
    let s0 := { s with users_arr := [] }
    let r := onUpdateLoop env s0.users_data.length 0 (s0, [])
    ({ r.1 with users_data := [] }, r.2)
  else (s, [])

/-- The method `UserTracker::onNewFrame` (source lines 129-154) on the state embedded
here: `none` is a failed `readFrame`, which returns early; `some us` is a frame with
detections `us`, pushed one by one behind the pending ones.  The frame rate estimate,
the user map and the depth pixels it also stores are not read by `onUpdate`. -/
def onNewFrame (s : UserTracker) (frame : Option (List UserData)) : UserTracker :=
  match frame with
  | none => s
  | some us => { s with users_data := us.foldl (fun acc u => acc ++ [u]) s.users_data }

/-- The detections of a batch processed in order, starting from `s`. -/
def runBatch (env : Collab) (s : UserTracker) (ds : List UserData) : UserTracker × List Action :=
  ds.foldl (fun acc d => ((onUpdateBody env acc.1 d).1, acc.2 ++ (onUpdateBody env acc.1 d).2)) (s, [])

/-- Number of lifecycle events (`newUser` or `lostUser`) for identity `k` in a trace. -/
def lifecycleCount (k : UserId) : List Action → Nat
  | [] => 0
  | Action.newUser id _ _ _ :: rest => (if id = k then 1 else 0) + lifecycleCount k rest
  | Action.lostUser id _ _ _ :: rest => (if id = k then 1 else 0) + lifecycleCount k rest
  | _ :: rest => lifecycleCount k rest

/-- Whether an action is a `newUser` event for identity `k`. -/
def isNewUserFor (k : UserId) : Action → Bool
  | Action.newUser id _ _ _ => decide (id = k)
  | _ => false

/-- Whether an action is a `lostUser` event for identity `k`. -/
def isLostUserFor (k : UserId) : Action → Bool
  | Action.lostUser id _ _ _ => decide (id = k)
  | _ => false

/-- Whether an action is a pose update with a detection of identity `k`. -/
def isPoseUpdateFor (k : UserId) : Action → Bool
  | Action.updateUserData _ data => decide (data.id = k)
  | _ => false

/-- The state the loop body is shown to leave behind for a detection flagged new
(`onUpdateBody_new`). -/
def afterNew (env : Collab) (s : UserTracker) (user : UserData) : UserTracker :=
  { users := mapAssign user.id s.heap.length s.users
    heap := s.heap ++ [env.freshUser.updateUserData env user]
    users_data := s.users_data
    users_arr := s.users_arr ++ [s.heap.length]
    bTrackOutOfFrame := s.bTrackOutOfFrame
    bShowDelta := true
    startTrackTime := env.now }

/-! ## Sample data -/

/-- A record with no joints and all fields zero. -/
def User.blank : User :=
  { userdata := ⟨0, false, false, false, ⟨[], .SKELETON_NONE⟩, ⟨0, 0, 0⟩⟩
    joints := []
    status_string := ""
    center_of_mass := ⟨0, 0, 0⟩
    center_of_bone := ⟨0, 0, 0⟩
    activity := 0
    head := ⟨0, 0⟩
    neck := ⟨0, 0⟩
    leftShoulder := ⟨0, 0⟩
    rightShoulder := ⟨0, 0⟩
    leftElbow := ⟨0, 0⟩
    rightElbow := ⟨0, 0⟩
    leftHand := ⟨0, 0⟩
    rightHand := ⟨0, 0⟩
    torso := ⟨0, 0⟩
    leftHip := ⟨0, 0⟩
    rightHip := ⟨0, 0⟩
    leftKnee := ⟨0, 0⟩
    rightKnee := ⟨0, 0⟩
    leftFoot := ⟨0, 0⟩
    rightFoot := ⟨0, 0⟩ }

/-- Sample collaborators: distance along the x axis, an orthographic projection,
and a constructor that builds the skeleton of a blank record. -/
def sampleEnv : Collab :=
  { distance := fun a b => |a.x - b.x|
    convertJointCoordinatesToDepth := fun x y _ => ⟨x, y⟩
    freshUser := User.blank.buildSkeleton
    now := 0 }

/-- A sample detection with an empty skeleton in state `SKELETON_NONE`. -/
def sampleData (id : UserId) (isNew isLost isVisible : Bool) : UserData :=
  ⟨id, isNew, isLost, isVisible, ⟨[], .SKELETON_NONE⟩, ⟨0, 0, 0⟩⟩

/-- A sample tracker with nothing tracked and nothing pending. -/
def sampleTracker : UserTracker :=
  { users := [], heap := [], users_data := [], users_arr := [],
    bTrackOutOfFrame := false, bShowDelta := false, startTrackTime := 0 }

/-- A sample tracker in which identity 1 is mapped to record 0, a freshly built record. -/
def trackedOne : UserTracker :=
  { users := [(1, 0)], heap := [sampleEnv.freshUser], users_data := [], users_arr := [],
    bTrackOutOfFrame := false, bShowDelta := false, startTrackTime := 0 }

/-- A sample detection of identity `id` whose torso is at `(x, 0, 0)`, in state `SKELETON_TRACKED`. -/
def sampleMove (id : UserId) (x : ℚ) : UserData :=
  { id := id, isNew := false, isLost := false, isVisible := true
    skeleton :=
      { joints := List.replicate 8 SkeletonJoint.zero
          ++ [{ position := ⟨x, 0, 0⟩, positionConfidence := 1, orientation := ⟨0, 0, 0, 1⟩,
                orientationConfidence := 1 }]
        state := .SKELETON_TRACKED }
    centerOfMass := ⟨x, 0, 0⟩ }

/-- A sample batch: identity 1 is reported new and, in the next frame, lost. -/
def newThenLost : UserTracker :=
  { sampleTracker with
    users_data := [sampleData 1 true false true, sampleData 1 false true true] }

/-- A sample batch on `trackedOne`: identity 1 is reported lost and, in the next frame, new. -/
def lostThenNew : UserTracker :=
  { trackedOne with
    users_data := [sampleData 1 false true true, sampleData 1 true false true] }

/-- A sample batch on `trackedOne`: identity 1 is reported lost and then reported again, not new. -/
def lostThenSeen : UserTracker :=
  { trackedOne with
    users_data := [sampleData 1 false true true, sampleData 1 false false true] }

/-- A sample batch on `trackedOne` with distinct identities: 2 is new, 1 is lost. -/
def distinctBatch : UserTracker :=
  { trackedOne with
    users_data := [sampleData 2 true false true, sampleData 1 false true true] }

/-! ## Auxiliary lemmas -/

theorem length_modifyAt {α : Type} (l : List α) (i : Nat) (f : α → α) :
    (modifyAt l i f).length = l.length := by
  unfold modifyAt
  split <;> simp

theorem getD_modifyAt {α : Type} (l : List α) (i j : Nat) (f : α → α) (d : α) :
    (modifyAt l i f).getD j d = if i = j ∧ j < l.length then f (l.getD j d) else l.getD j d := by
  unfold modifyAt
  by_cases hi : i < l.length
  · have h1 : l[i]? = some l[i] := List.getElem?_eq_getElem hi
    simp only [h1]
    by_cases hij : i = j
    · subst hij
      simp [hi, List.getD_eq_getElem?_getD, List.getElem?_set]
    · simp [hij, List.getD_eq_getElem?_getD, List.getElem?_set]
  · have h1 : l[i]? = none := List.getElem?_eq_none (by omega)
    simp only [h1]
    by_cases hij : i = j
    · subst hij
      simp [hi]
    · simp [hij]

theorem length_resizeJoints (js : List Joint) (n : Nat) : (resizeJoints js n).length = n := by
  unfold resizeJoints
  simp
  omega

theorem parent_resizeJoints (js : List Joint) (n : Nat) (h : ∀ j ∈ js, j.parent = none) :
    ∀ j ∈ resizeJoints js n, j.parent = none := by
  intro j hj
  unfold resizeJoints at hj
  rcases List.mem_append.1 hj with h1 | h1
  · exact h j (List.mem_of_mem_take h1)
  · rw [List.eq_of_mem_replicate h1]; rfl

theorem length_BIND (p c : JointType) (js : List Joint) : (BIND p c js).length = js.length :=
  length_modifyAt _ _ _

theorem parent_getD_BIND (p c : JointType) (js : List Joint) (i : Nat) (hi : i < js.length) :
    ((BIND p c js).getD i Joint.default).parent
      = if c.toNat = i then some p else (js.getD i Joint.default).parent := by
  unfold BIND
  rw [getD_modifyAt]
  by_cases h : c.toNat = i <;> simp [h, hi]

theorem toNat_lt (t : JointType) : t.toNat < 15 := by cases t <;> decide

theorem parentOf_buildSkeleton (u : User) (h : ∀ j ∈ u.joints, j.parent = none) :
    u.buildSkeleton.parentOf = boundParent := by
  funext t
  have h0 := parent_resizeJoints u.joints NITE_JOINT_COUNT h
  have hl := length_resizeJoints u.joints NITE_JOINT_COUNT
  have hbase : ((resizeJoints u.joints NITE_JOINT_COUNT).getD t.toNat Joint.default).parent = none := by
    have ht : t.toNat < (resizeJoints u.joints NITE_JOINT_COUNT).length := by
      rw [hl]; exact toNat_lt t
    rw [List.getD_eq_getElem _ _ ht]
    exact h0 _ (List.getElem_mem ht)
  have ht := toNat_lt t
  unfold User.parentOf User.buildSkeleton
  simp only []
  repeat rw [parent_getD_BIND _ _ _ _ (by simp only [length_BIND, hl]; exact ht)]
  rw [hbase]
  cases t <;> simp [JointType.toNat, boundParent]

theorem ancestor_none_succ (parent : JointType → Option JointType) (t : JointType) (n : Nat)
    (h : ancestor parent n t = none) : ∀ m, n ≤ m → ancestor parent m t = none := by
  intro m hm
  induction m, hm using Nat.le_induction with
  | base => exact h
  | succ k _ ih => simp [ancestor, ih]

theorem boundParent_chain_ends (t : JointType) : ancestor boundParent 4 t = none := by
  cases t <;> rfl

theorem boundParent_reaches_torso (t : JointType) :
    ∃ n, n ≤ 3 ∧ ancestor boundParent n t = some JointType.JOINT_TORSO := by
  cases t
  case JOINT_TORSO => exact ⟨0, by decide, rfl⟩
  case JOINT_HEAD => exact ⟨2, by decide, rfl⟩
  case JOINT_LEFT_ELBOW => exact ⟨2, by decide, rfl⟩
  case JOINT_RIGHT_ELBOW => exact ⟨2, by decide, rfl⟩
  case JOINT_LEFT_KNEE => exact ⟨2, by decide, rfl⟩
  case JOINT_RIGHT_KNEE => exact ⟨2, by decide, rfl⟩
  case JOINT_LEFT_HAND => exact ⟨3, by decide, rfl⟩
  case JOINT_RIGHT_HAND => exact ⟨3, by decide, rfl⟩
  case JOINT_LEFT_FOOT => exact ⟨3, by decide, rfl⟩
  case JOINT_RIGHT_FOOT => exact ⟨3, by decide, rfl⟩
  all_goals exact ⟨1, by decide, rfl⟩

theorem boundParent_acyclic (t : JointType) (n : Nat) (hn : 0 < n) :
    ancestor boundParent n t ≠ some t := by
  by_cases h4 : 4 ≤ n
  · rw [ancestor_none_succ boundParent t 4 (boundParent_chain_ends t) n h4]
    simp
  · have : n = 1 ∨ n = 2 ∨ n = 3 := by omega
    rcases this with h | h | h <;> subst h <;> cases t <;> decide

theorem flipZ_flipZ (p : ofVec3f) : flipZ (flipZ p) = p := by
  cases p
  simp [flipZ]

theorem activityStep_sub (d a : ℚ) : activityStep d a - d = (9 / 10) * (a - d) := by
  unfold activityStep
  ring

theorem activityStep_iterate_sub (d a : ℚ) (n : Nat) :
    (activityStep d)^[n] a - d = (9 / 10) ^ n * (a - d) := by
  induction n generalizing a with
  | zero => simp
  | succ k ih =>
    rw [Function.iterate_succ_apply, ih, activityStep_sub]
    ring

theorem activityStep_iterate_abs (d a : ℚ) (n : Nat) :
    |(activityStep d)^[n] a - d| = (9 / 10) ^ n * |a - d| := by
  rw [activityStep_iterate_sub, abs_mul, abs_of_nonneg (by positivity)]

theorem activityStep_tendsto (d a : ℚ) :
    Filter.Tendsto (fun n => (activityStep d)^[n] a) Filter.atTop (nhds d) := by
  have h1 : Filter.Tendsto (fun n : ℕ => ((9 : ℚ) / 10) ^ n) Filter.atTop (nhds 0) :=
    tendsto_pow_atTop_nhds_zero_of_lt_one (by norm_num) (by norm_num)
  have h2 : Filter.Tendsto (fun n : ℕ => ((9 : ℚ) / 10) ^ n * (a - d) + d) Filter.atTop (nhds d) := by
    have := (h1.mul_const (a - d)).add_const d
    simpa using this
  refine h2.congr (fun n => ?_)
  have := activityStep_iterate_sub d a n
  linarith

theorem updateDepthJoints_fields (env : Collab) (u : User) (data : UserData) :
    (updateDepthJoints env u data).joints = u.joints
      ∧ (updateDepthJoints env u data).activity = u.activity
      ∧ (updateDepthJoints env u data).center_of_bone = u.center_of_bone
      ∧ (updateDepthJoints env u data).userdata = u.userdata := by
  unfold updateDepthJoints
  split <;> simp

theorem activity_updateUserData (env : Collab) (u : User) (data : UserData) :
    (u.updateUserData env data).activity
      = activityStep (env.distance (u.updateUserData env data).center_of_bone u.center_of_bone)
          u.activity := by
  obtain ⟨h1, h2, h3, _⟩ := updateDepthJoints_fields env
    { u with userdata := data, joints := updateJoints u.joints data } data
  simp [User.updateUserData, h1, h2, h3]

theorem center_of_mass_updateUserData (env : Collab) (u : User) (data : UserData) :
    (u.updateUserData env data).center_of_mass
      = ⟨data.centerOfMass.x, data.centerOfMass.y, -data.centerOfMass.z⟩ := by
  obtain ⟨_, _, _, h4⟩ := updateDepthJoints_fields env
    { u with userdata := data, joints := updateJoints u.joints data } data
  simp [User.updateUserData, h4]

theorem status_string_updateUserData (env : Collab) (u : User) (data : UserData) :
    (u.updateUserData env data).status_string = statusString data := by
  simp [User.updateUserData]

theorem joints_updateUserData (env : Collab) (u : User) (data : UserData) :
    (u.updateUserData env data).joints = updateJoints u.joints data := by
  obtain ⟨h1, _, _, _⟩ := updateDepthJoints_fields env
    { u with userdata := data, joints := updateJoints u.joints data } data
  simp [User.updateUserData, h1]

theorem updateJoints_range (js : List Joint) (data : UserData) (n i : Nat) :
    (((List.range n).foldl
        (fun acc k => modifyAt acc k (fun j => j.updateJointData (data.skeleton.getJoint k))) js).length
      = js.length)
    ∧ ((List.range n).foldl
        (fun acc k => modifyAt acc k (fun j => j.updateJointData (data.skeleton.getJoint k))) js).getD
          i Joint.default
      = if i < n ∧ i < js.length then
          (js.getD i Joint.default).updateJointData (data.skeleton.getJoint i)
        else js.getD i Joint.default := by
  induction n with
  | zero => simp
  | succ k ih =>
    rw [List.range_succ, List.foldl_append]
    simp only [List.foldl_cons, List.foldl_nil]
    refine ⟨by rw [length_modifyAt]; exact ih.1, ?_⟩
    rw [getD_modifyAt, ih.1, ih.2]
    by_cases hki : k = i
    · subst hki
      by_cases hl : k < js.length <;> simp [hl]
    · have : (i < k + 1) = (i < k) := by
        apply propext; constructor <;> intro h <;> omega
      simp [hki, this]

theorem getD_updateJoints (js : List Joint) (data : UserData) (t : JointType)
    (h : t.toNat < js.length) :
    (updateJoints js data).getD t.toNat Joint.default
      = (js.getD t.toNat Joint.default).updateJointData (data.skeleton.getJoint t.toNat) := by
  have ht : t.toNat < NITE_JOINT_COUNT := by cases t <;> decide
  unfold updateJoints
  rw [(updateJoints_range js data NITE_JOINT_COUNT t.toNat).2]
  simp [ht, h]

theorem activity_foldl (env : Collab) (d : ℚ) (ds : List UserData) :
    ∀ u, constantVelocity env d u ds →
      (ds.foldl (fun acc x => acc.updateUserData env x) u).activity
        = (activityStep d)^[ds.length] u.activity := by
  induction ds with
  | nil => intro u _; rfl
  | cons x xs ih =>
    intro u h
    obtain ⟨h1, h2⟩ := h
    rw [List.foldl_cons, ih _ h2, activity_updateUserData, h1]
    rfl

/-! map lemmas -/
theorem mapFind_mapAssign_self (k : UserId) (v : UserRef) (m : UserMap) :
    mapFind k (mapAssign k v m) = some v := by
  induction m with
  | nil => simp [mapAssign, mapFind]
  | cons p rest ih =>
    obtain ⟨k1, v1⟩ := p
    unfold mapAssign
    by_cases h1 : k < k1
    · simp [h1, mapFind]
    · by_cases h2 : k = k1
      · simp [h1, h2, mapFind]
      · have h3 : ¬ k1 = k := fun h => h2 h.symm
        simp [h1, h2, mapFind, h3, ih]

theorem mapFind_mapAssign_other (k j : UserId) (v : UserRef) (m : UserMap) (hj : j ≠ k) :
    mapFind j (mapAssign k v m) = mapFind j m := by
  have hk : ¬ k = j := fun h => hj h.symm
  induction m with
  | nil => simp [mapAssign, mapFind, hk]
  | cons p rest ih =>
    obtain ⟨k1, v1⟩ := p
    unfold mapAssign
    by_cases h1 : k < k1
    · simp [h1, mapFind, hk]
    · by_cases h2 : k = k1
      · subst h2
        simp [mapFind, hk]
      · simp [h1, h2, mapFind, ih]

theorem mapFind_mapErase_self (k : UserId) (m : UserMap) : mapFind k (mapErase k m) = none := by
  induction m with
  | nil => rfl
  | cons p rest ih =>
    obtain ⟨k1, v1⟩ := p
    unfold mapErase
    by_cases h : k1 = k
    · simp [h, ih]
    · simp [h, mapFind, ih]

theorem mapFind_mapErase_other (k j : UserId) (m : UserMap) (hj : j ≠ k) :
    mapFind j (mapErase k m) = mapFind j m := by
  induction m with
  | nil => rfl
  | cons p rest ih =>
    obtain ⟨k1, v1⟩ := p
    unfold mapErase
    by_cases h : k1 = k
    · have h3 : ¬ k1 = j := fun h4 => hj (h4.symm.trans h)
      simp only [h, if_true]
      rw [ih, mapFind]
      rw [if_neg (fun e => hj e.symm)]
    · simp only [h, if_false]
      by_cases h6 : k1 = j
      · simp [mapFind, h6]
      · simp [mapFind, h6, ih]

theorem mem_mapErase (k : UserId) (m : UserMap) (q : UserId × UserRef) (hq : q ∈ mapErase k m) :
    q ∈ m := by
  induction m with
  | nil => simp [mapErase] at hq
  | cons p rest ih =>
    obtain ⟨k1, v1⟩ := p
    unfold mapErase at hq
    by_cases h : k1 = k
    · simp only [h, if_true] at hq
      exact List.mem_cons_of_mem _ (ih hq)
    · simp only [h, if_false] at hq
      rcases List.mem_cons.1 hq with h1 | h1
      · rw [h1]; exact List.mem_cons_self _ _
      · exact List.mem_cons_of_mem _ (ih h1)

theorem mem_mapAssign (k : UserId) (v : UserRef) (m : UserMap) (q : UserId × UserRef)
    (hq : q ∈ mapAssign k v m) : q = (k, v) ∨ q ∈ m := by
  induction m with
  | nil => simp [mapAssign] at hq; exact Or.inl hq
  | cons a r ihr =>
    obtain ⟨ka, va⟩ := a
    unfold mapAssign at hq
    by_cases c1 : k < ka
    · simp only [c1, if_true] at hq
      rcases List.mem_cons.1 hq with h | h
      · exact Or.inl h
      · exact Or.inr h
    · by_cases c2 : k = ka
      · simp only [c1, c2, if_false, if_true] at hq
        have hq2 : q ∈ (ka, v) :: r := by simpa using hq
        rcases List.mem_cons.1 hq2 with h | h
        · left; rw [h, c2]
        · exact Or.inr (List.mem_cons_of_mem _ h)
      · simp only [c1, c2, if_false] at hq
        rcases List.mem_cons.1 hq with h | h
        · right; rw [h]; exact List.mem_cons_self _ _
        · rcases ihr h with h1 | h1
          · exact Or.inl h1
          · exact Or.inr (List.mem_cons_of_mem _ h1)

theorem mapCount_eq_zero_of_lt (k : UserId) (m : UserMap) (h : ∀ p ∈ m, k < p.1) :
    mapCount k m = 0 := by
  induction m with
  | nil => rfl
  | cons p rest ih =>
    obtain ⟨k1, v1⟩ := p
    have h1 : k < k1 := h (k1, v1) (List.mem_cons_self _ _)
    have h2 : ¬ k1 = k := fun e => absurd (e ▸ h1) (lt_irrefl _)
    unfold mapCount
    simp [h2, ih (fun p hp => h p (List.mem_cons_of_mem _ hp))]

theorem mapCount_mapAssign (k : UserId) (v : UserRef) (m : UserMap) (hm : mapOrdered m) :
    mapCount k (mapAssign k v m) = 1 := by
  induction m with
  | nil => simp [mapAssign, mapCount]
  | cons p rest ih =>
    obtain ⟨k1, v1⟩ := p
    unfold mapOrdered at hm
    rw [List.pairwise_cons] at hm
    unfold mapAssign
    by_cases h1 : k < k1
    · have hz : mapCount k ((k1, v1) :: rest) = 0 := by
        apply mapCount_eq_zero_of_lt
        intro p hp
        rcases List.mem_cons.1 hp with h | h
        · rw [h]; exact h1
        · exact lt_trans h1 (hm.1 p h)
      simp only [h1, if_true]
      rw [mapCount, hz]
      simp
    · by_cases h2 : k = k1
      · subst h2
        have hz : mapCount k rest = 0 := mapCount_eq_zero_of_lt k rest (fun p hp => hm.1 p hp)
        simp only [h1, if_false, if_true]
        rw [mapCount, hz]
        simp
      · have h3 : ¬ k1 = k := fun h => h2 h.symm
        simp only [h1, h2, if_false]
        rw [mapCount, ih hm.2]
        simp [h3]

theorem mapOrdered_mapAssign (k : UserId) (v : UserRef) (m : UserMap) (hm : mapOrdered m) :
    mapOrdered (mapAssign k v m) := by
  induction m with
  | nil => simp [mapAssign, mapOrdered]
  | cons p rest ih =>
    obtain ⟨k1, v1⟩ := p
    unfold mapOrdered at hm ih ⊢
    have hm2 := List.pairwise_cons.1 hm
    unfold mapAssign
    by_cases h1 : k < k1
    · simp only [h1, if_true]
      refine List.pairwise_cons.2 ⟨?_, hm⟩
      intro p hp
      rcases List.mem_cons.1 hp with h | h
      · rw [h]; exact h1
      · exact lt_trans h1 (hm2.1 p h)
    · by_cases h2 : k = k1
      · subst h2
        simp only [h1, if_false, if_true]
        exact List.pairwise_cons.2 ⟨fun p hp => hm2.1 p hp, hm2.2⟩
      · simp only [h1, h2, if_false]
        refine List.pairwise_cons.2 ⟨?_, ih hm2.2⟩
        intro p hp
        rcases mem_mapAssign k v rest p hp with h | h
        · rw [h]
          exact lt_of_le_of_ne (not_lt.1 h1) (fun e => h2 e.symm)
        · exact hm2.1 p h

theorem mapOrdered_mapErase (k : UserId) (m : UserMap) (hm : mapOrdered m) :
    mapOrdered (mapErase k m) := by
  induction m with
  | nil => simp [mapErase, mapOrdered]
  | cons p rest ih =>
    obtain ⟨k1, v1⟩ := p
    unfold mapOrdered at hm ih ⊢
    have hm2 := List.pairwise_cons.1 hm
    unfold mapErase
    by_cases h : k1 = k
    · simp only [h, if_true]
      exact ih hm2.2
    · simp only [h, if_false]
      exact List.pairwise_cons.2 ⟨fun p hp => hm2.1 p (mem_mapErase k rest p hp), ih hm2.2⟩

theorem modifyAt_append_length {α : Type} (l : List α) (a : α) (f : α → α) :
    modifyAt (l ++ [a]) l.length f = l ++ [f a] := by
  unfold modifyAt
  simp

theorem onUpdateBody_new (env : Collab) (s : UserTracker) (user : UserData)
    (hnew : user.isNew = true) :
    onUpdateBody env s user
      = (afterNew env s user,
          [Action.startSkeletonTracking user.id,
           Action.updateUserData s.heap.length user,
           Action.newUser user.id s.heap.length
             (some (env.freshUser.updateUserData env user))
             (mapAssign user.id s.heap.length s.users)]) := by
  simp [onUpdateBody, onUpdateResolved, hnew, afterNew, modifyAt_append_length]

theorem onUpdateBody_lost (env : Collab) (s : UserTracker) (user : UserData) (r : UserRef)
    (hnew : user.isNew = false) (hr : mapFind user.id s.users = some r)
    (hlost : (user.isLost || (!user.isVisible && !s.bTrackOutOfFrame)) = true) :
    onUpdateBody env s user
      = ({ s with users := mapErase user.id s.users },
          [Action.lostUser user.id r s.heap[r]? s.users,
           Action.stopSkeletonTracking user.id]) := by
  unfold onUpdateBody
  simp only [hnew, hr, hlost]
  simp

theorem onUpdateBody_keep (env : Collab) (s : UserTracker) (user : UserData) (r : UserRef)
    (hnew : user.isNew = false) (hr : mapFind user.id s.users = some r)
    (hlost : (user.isLost || (!user.isVisible && !s.bTrackOutOfFrame)) = false) :
    onUpdateBody env s user
      = ({ s with
            heap := modifyAt s.heap r (fun u => u.updateUserData env user)
            users_arr := s.users_arr ++ [r]
            bShowDelta :=
              if user.skeleton.state = .SKELETON_TRACKED ∧ s.bShowDelta = true then false
              else s.bShowDelta },
          [Action.updateUserData r user]) := by
  unfold onUpdateBody
  simp only [hnew, hr, hlost]
  by_cases h : user.skeleton.state = .SKELETON_TRACKED ∧ s.bShowDelta = true
  · simp [onUpdateResolved, hnew, h.1, h.2]
  · by_cases h1 : user.skeleton.state = .SKELETON_TRACKED
    · have h2 : s.bShowDelta = false := by
        cases hb : s.bShowDelta
        · rfl
        · exact absurd ⟨h1, hb⟩ h
      simp [onUpdateResolved, hnew, h1, h2]
    · simp [onUpdateResolved, hnew, h1]

theorem onUpdateBody_drop (env : Collab) (s : UserTracker) (user : UserData)
    (hnew : user.isNew = false) (hr : mapFind user.id s.users = none) :
    onUpdateBody env s user = (s, []) := by
  unfold onUpdateBody
  simp only [hnew, hr]
  simp [onUpdateResolved]

/-- The four ways the loop body can go. -/
theorem onUpdateBody_cases (s : UserTracker) (user : UserData) :
    (user.isNew = true)
    ∨ (user.isNew = false ∧ mapFind user.id s.users = none)
    ∨ (∃ r, user.isNew = false ∧ mapFind user.id s.users = some r
        ∧ (user.isLost || (!user.isVisible && !s.bTrackOutOfFrame)) = true)
    ∨ (∃ r, user.isNew = false ∧ mapFind user.id s.users = some r
        ∧ (user.isLost || (!user.isVisible && !s.bTrackOutOfFrame)) = false) := by
  cases hn : user.isNew
  · right
    cases hr : mapFind user.id s.users with
    | none => exact Or.inl ⟨rfl, rfl⟩
    | some r =>
      right
      cases hl : (user.isLost || (!user.isVisible && !s.bTrackOutOfFrame))
      · exact Or.inr ⟨r, rfl, rfl, rfl⟩
      · exact Or.inl ⟨r, rfl, rfl, rfl⟩
  · exact Or.inl rfl

theorem users_data_onUpdateBody (env : Collab) (s : UserTracker) (user : UserData) :
    (onUpdateBody env s user).1.users_data = s.users_data := by
  rcases onUpdateBody_cases s user with h | ⟨h1, h2⟩ | ⟨r, h1, h2, h3⟩ | ⟨r, h1, h2, h3⟩
  · rw [onUpdateBody_new env s user h]; rfl
  · rw [onUpdateBody_drop env s user h1 h2]
  · rw [onUpdateBody_lost env s user r h1 h2 h3]
  · rw [onUpdateBody_keep env s user r h1 h2 h3]

theorem bTrackOutOfFrame_onUpdateBody (env : Collab) (s : UserTracker) (user : UserData) :
    (onUpdateBody env s user).1.bTrackOutOfFrame = s.bTrackOutOfFrame := by
  rcases onUpdateBody_cases s user with h | ⟨h1, h2⟩ | ⟨r, h1, h2, h3⟩ | ⟨r, h1, h2, h3⟩
  · rw [onUpdateBody_new env s user h]; rfl
  · rw [onUpdateBody_drop env s user h1 h2]
  · rw [onUpdateBody_lost env s user r h1 h2 h3]
  · rw [onUpdateBody_keep env s user r h1 h2 h3]

/-! runBatch -/

theorem foldl_body_log (env : Collab) (ds : List UserData) :
    ∀ (s : UserTracker) (log : List Action),
      ds.foldl (fun acc d => ((onUpdateBody env acc.1 d).1, acc.2 ++ (onUpdateBody env acc.1 d).2))
          (s, log)
        = ((runBatch env s ds).1, log ++ (runBatch env s ds).2) := by
  induction ds with
  | nil => intro s log; simp [runBatch]
  | cons d rest ih =>
    intro s log
    unfold runBatch
    simp only [List.foldl_cons, List.nil_append]
    rw [ih, ih (onUpdateBody env s d).1 (onUpdateBody env s d).2]
    simp [List.append_assoc]

theorem runBatch_nil (env : Collab) (s : UserTracker) : runBatch env s [] = (s, []) := rfl

theorem runBatch_cons (env : Collab) (s : UserTracker) (d : UserData) (ds : List UserData) :
    runBatch env s (d :: ds)
      = ((runBatch env (onUpdateBody env s d).1 ds).1,
          (onUpdateBody env s d).2 ++ (runBatch env (onUpdateBody env s d).1 ds).2) := by
  conv_lhs => unfold runBatch
  simp only [List.foldl_cons, List.nil_append]
  rw [foldl_body_log]

theorem runBatch_append (env : Collab) (s : UserTracker) (xs ys : List UserData) :
    runBatch env s (xs ++ ys)
      = ((runBatch env (runBatch env s xs).1 ys).1,
          (runBatch env s xs).2 ++ (runBatch env (runBatch env s xs).1 ys).2) := by
  induction xs generalizing s with
  | nil => simp [runBatch_nil]
  | cons x rest ih =>
    rw [List.cons_append, runBatch_cons, ih, runBatch_cons]
    simp [List.append_assoc]

theorem users_data_runBatch (env : Collab) (ds : List UserData) :
    ∀ s : UserTracker, (runBatch env s ds).1.users_data = s.users_data := by
  induction ds with
  | nil => intro s; rfl
  | cons d rest ih =>
    intro s
    rw [runBatch_cons]
    simp only
    rw [ih, users_data_onUpdateBody]

theorem onUpdateLoop_eq (env : Collab) (fuel : Nat) :
    ∀ (i : Nat) (s : UserTracker) (log : List Action), s.users_data.length ≤ i + fuel →
      onUpdateLoop env fuel i (s, log)
        = ((runBatch env s (s.users_data.drop i)).1,
            log ++ (runBatch env s (s.users_data.drop i)).2) := by
  induction fuel with
  | zero =>
    intro i s log h
    have : s.users_data.drop i = [] := List.drop_eq_nil_of_le (by omega)
    simp [onUpdateLoop, this, runBatch_nil]
  | succ n ih =>
    intro i s log h
    unfold onUpdateLoop
    by_cases hi : i < s.users_data.length
    · have h1 : s.users_data[i]? = some s.users_data[i] := List.getElem?_eq_getElem hi
      have h2 : s.users_data.drop i = s.users_data[i] :: s.users_data.drop (i + 1) :=
        List.drop_eq_getElem_cons hi
      simp only [h1]
      rw [ih (i + 1) _ _ (by rw [users_data_onUpdateBody]; omega), users_data_onUpdateBody, h2,
        runBatch_cons]
      simp [List.append_assoc]
    · have h1 : s.users_data[i]? = none := List.getElem?_eq_none (by omega)
      have : s.users_data.drop i = [] := List.drop_eq_nil_of_le (by omega)
      simp [h1, this, runBatch_nil]

theorem onUpdate_eq_runBatch (env : Collab) (s : UserTracker) (h : s.users_data ≠ []) :
    onUpdate env s
      = ({ (runBatch env { s with users_arr := [] } s.users_data).1 with users_data := [] },
          (runBatch env { s with users_arr := [] } s.users_data).2) := by
  unfold onUpdate
  simp only [h, ne_eq, not_false_eq_true, if_true]
  rw [onUpdateLoop_eq env _ 0 _ [] (by simp)]
  simp

theorem onNewFrame_users_data (s : UserTracker) (us : List UserData) :
    (onNewFrame s (some us)).users_data = s.users_data ++ us := by
  unfold onNewFrame
  simp only
  generalize s.users_data = acc
  induction us generalizing acc with
  | nil => simp
  | cons u rest ih => simp [List.foldl_cons, ih]

theorem lifecycleCount_append (k : UserId) (a b : List Action) :
    lifecycleCount k (a ++ b) = lifecycleCount k a + lifecycleCount k b := by
  induction a with
  | nil => simp [lifecycleCount]
  | cons x rest ih =>
    cases x <;> simp [lifecycleCount, ih, Nat.add_assoc]

theorem lifecycleCount_onUpdateBody (env : Collab) (s : UserTracker) (user : UserData)
    (k : UserId) :
    lifecycleCount k (onUpdateBody env s user).2 ≤ if user.id = k then 1 else 0 := by
  rcases onUpdateBody_cases s user with h | ⟨h1, h2⟩ | ⟨r, h1, h2, h3⟩ | ⟨r, h1, h2, h3⟩
  · rw [onUpdateBody_new env s user h]
    by_cases hk : user.id = k <;> simp [lifecycleCount, hk]
  · rw [onUpdateBody_drop env s user h1 h2]
    simp [lifecycleCount]
  · rw [onUpdateBody_lost env s user r h1 h2 h3]
    by_cases hk : user.id = k <;> simp [lifecycleCount, hk]
  · rw [onUpdateBody_keep env s user r h1 h2 h3]
    simp [lifecycleCount]

theorem lifecycleCount_runBatch (env : Collab) (k : UserId) (ds : List UserData) :
    ∀ s : UserTracker,
      lifecycleCount k (runBatch env s ds).2 ≤ List.count k (ds.map (fun d => d.id)) := by
  induction ds with
  | nil => intro s; simp [runBatch_nil, lifecycleCount]
  | cons d rest ih =>
    intro s
    rw [runBatch_cons]
    simp only [lifecycleCount_append, List.map_cons, List.count_cons]
    have h1 := lifecycleCount_onUpdateBody env s d k
    have h2 := ih (onUpdateBody env s d).1
    by_cases hk : d.id = k
    · simp only [hk, if_true] at h1
      simp only [hk, beq_self_eq_true, if_true]
      omega
    · simp only [hk, if_false] at h1
      have : (d.id == k) = false := by simpa using hk
      simp only [this]
      simp only [Bool.false_eq_true, if_false]
      omega

theorem mapFind_onUpdateBody_other (env : Collab) (s : UserTracker) (user : UserData)
    (k : UserId) (hk : k ≠ user.id) :
    mapFind k (onUpdateBody env s user).1.users = mapFind k s.users := by
  rcases onUpdateBody_cases s user with h | ⟨h1, h2⟩ | ⟨r, h1, h2, h3⟩ | ⟨r, h1, h2, h3⟩
  · rw [onUpdateBody_new env s user h]
    exact mapFind_mapAssign_other _ _ _ _ hk
  · rw [onUpdateBody_drop env s user h1 h2]
  · rw [onUpdateBody_lost env s user r h1 h2 h3]
    exact mapFind_mapErase_other _ _ _ hk
  · rw [onUpdateBody_keep env s user r h1 h2 h3]

theorem poseUpdate_onUpdateBody (env : Collab) (s : UserTracker) (user : UserData)
    (k : UserId) (hk : k ≠ user.id) :
    ∀ a ∈ (onUpdateBody env s user).2, isPoseUpdateFor k a = false := by
  have hk2 : ¬ user.id = k := fun e => hk e.symm
  rcases onUpdateBody_cases s user with h | ⟨h1, h2⟩ | ⟨r, h1, h2, h3⟩ | ⟨r, h1, h2, h3⟩
  · rw [onUpdateBody_new env s user h]
    intro a ha
    simp only [List.mem_cons, List.mem_singleton, List.not_mem_nil, or_false] at ha
    rcases ha with e | e | e <;> subst e <;> simp [isPoseUpdateFor, hk2]
  · rw [onUpdateBody_drop env s user h1 h2]
    intro a ha
    simp at ha
  · rw [onUpdateBody_lost env s user r h1 h2 h3]
    intro a ha
    simp only [List.mem_cons, List.mem_singleton, List.not_mem_nil, or_false] at ha
    rcases ha with e | e <;> subst e <;> simp [isPoseUpdateFor]
  · rw [onUpdateBody_keep env s user r h1 h2 h3]
    intro a ha
    simp only [List.mem_cons, List.mem_singleton, List.not_mem_nil, or_false] at ha
    subst ha
    simp [isPoseUpdateFor, hk2]

theorem runBatch_absent (env : Collab) (k : UserId) (ds : List UserData) :
    ∀ s : UserTracker, mapFind k s.users = none →
      (∀ d ∈ ds, d.id = k → d.isNew = false) →
      mapFind k (runBatch env s ds).1.users = none
        ∧ (∀ a ∈ (runBatch env s ds).2, isPoseUpdateFor k a = false)
        ∧ lifecycleCount k (runBatch env s ds).2 = 0 := by
  induction ds with
  | nil =>
    intro s hs _
    simp [runBatch_nil, hs, lifecycleCount]
  | cons d rest ih =>
    intro s hs hd
    rw [runBatch_cons]
    have hrest : ∀ x ∈ rest, x.id = k → x.isNew = false :=
      fun x hx => hd x (List.mem_cons_of_mem _ hx)
    by_cases hk : d.id = k
    · have hnew := hd d (List.mem_cons_self _ _) hk
      have hdrop := onUpdateBody_drop env s d hnew (by rw [hk]; exact hs)
      rw [hdrop]
      simpa using ih s hs hrest
    · have hk2 : k ≠ d.id := fun e => hk e.symm
      have h1 : mapFind k (onUpdateBody env s d).1.users = none := by
        rw [mapFind_onUpdateBody_other env s d k hk2]; exact hs
      obtain ⟨i1, i2, i3⟩ := ih (onUpdateBody env s d).1 h1 hrest
      refine ⟨i1, ?_, ?_⟩
      · intro a ha
        rcases List.mem_append.1 ha with h | h
        · exact poseUpdate_onUpdateBody env s d k hk2 a h
        · exact i2 a h
      · rw [lifecycleCount_append, i3]
        have := lifecycleCount_onUpdateBody env s d k
        simp only [hk, if_false] at this
        omega

theorem lostUser_mem_onUpdateBody (env : Collab) (s : UserTracker) (user : UserData)
    (k : UserId) (ref : UserRef) (record : Option User) (m : UserMap)
    (h : Action.lostUser k ref record m ∈ (onUpdateBody env s user).2) :
    user.isNew = false ∧ mapFind user.id s.users = some ref
      ∧ (user.isLost || (!user.isVisible && !s.bTrackOutOfFrame)) = true
      ∧ k = user.id ∧ record = s.heap[ref]? ∧ m = s.users := by
  rcases onUpdateBody_cases s user with h0 | ⟨h1, h2⟩ | ⟨r, h1, h2, h3⟩ | ⟨r, h1, h2, h3⟩
  · rw [onUpdateBody_new env s user h0] at h
    simp at h
  · rw [onUpdateBody_drop env s user h1 h2] at h
    simp at h
  · rw [onUpdateBody_lost env s user r h1 h2 h3] at h
    simp only [List.mem_cons, List.mem_singleton, List.not_mem_nil, or_false] at h
    rcases h with e | e
    · injection e with e1 e2 e3 e4
      subst e2
      exact ⟨h1, h2, h3, e1, e3, e4⟩
    · cases e
  · rw [onUpdateBody_keep env s user r h1 h2 h3] at h
    simp at h

theorem center_of_bone_updateUserData (env : Collab) (u : User) (data : UserData) :
    (u.updateUserData env data).center_of_bone
      = ((updateJoints u.joints data).getD JointType.JOINT_TORSO.toNat Joint.default).globalPosition := by
  obtain ⟨h1, _, _, _⟩ := updateDepthJoints_fields env
    { u with userdata := data, joints := updateJoints u.joints data } data
  simp [User.updateUserData, h1]

theorem length_updateJoints (js : List Joint) (data : UserData) :
    (updateJoints js data).length = js.length :=
  (updateJoints_range js data NITE_JOINT_COUNT 0).1

theorem torso_updateUserData (env : Collab) (u : User) (data : UserData)
    (h : JointType.JOINT_TORSO.toNat < u.joints.length) :
    (u.updateUserData env data).center_of_bone
      = flipZ ⟨(data.skeleton.getJoint JointType.JOINT_TORSO.toNat).position.x,
          (data.skeleton.getJoint JointType.JOINT_TORSO.toNat).position.y,
          (data.skeleton.getJoint JointType.JOINT_TORSO.toNat).position.z⟩ := by
  rw [center_of_bone_updateUserData, getD_updateJoints _ _ _ h]
  rfl

theorem onUpdate_users_data (env : Collab) (s : UserTracker) :
    (onUpdate env s).1.users_data = [] := by
  unfold onUpdate
  by_cases h : s.users_data = []
  · simp [h]
  · simp [h]

theorem onUpdate_log (env : Collab) (s : UserTracker) :
    (onUpdate env s).2 = (runBatch env { s with users_arr := [] } s.users_data).2
      ∧ (onUpdate env s).1.users = (runBatch env { s with users_arr := [] } s.users_data).1.users
      ∧ (onUpdate env s).1.heap = (runBatch env { s with users_arr := [] } s.users_data).1.heap := by
  by_cases h : s.users_data = []
  · simp [onUpdate, h, runBatch_nil]
  · rw [onUpdate_eq_runBatch env s h]
    exact ⟨rfl, rfl, rfl⟩

theorem onUpdate_of_empty (env : Collab) (s : UserTracker) (h : s.users_data = []) :
    onUpdate env s = (s, []) := by
  unfold onUpdate
  simp [h]

theorem onUpdate_singleton (env : Collab) (s : UserTracker) (user : UserData)
    (h : s.users_data = [user]) :
    (onUpdate env s).2 = (onUpdateBody env { s with users_arr := [] } user).2
      ∧ (onUpdate env s).1.users = (onUpdateBody env { s with users_arr := [] } user).1.users := by
  obtain ⟨hl, hu, _⟩ := onUpdate_log env s
  have e := congrArg (runBatch env { s with users_arr := [] }) h
  rw [hl, hu, e, runBatch_cons, runBatch_nil]
  simp

theorem lifecycleCount_pos_of_new (k : UserId) (log : List Action)
    (h : log.any (isNewUserFor k) = true) : 1 ≤ lifecycleCount k log := by
  induction log with
  | nil => simp at h
  | cons a rest ih =>
    rw [List.any_cons, Bool.or_eq_true] at h
    cases a with
    | newUser id r u m =>
      rcases h with h | h
      · have : id = k := by simpa [isNewUserFor] using h
        simp [lifecycleCount, this]
      · have := ih h
        simp only [lifecycleCount]
        omega
    | lostUser id r u m =>
      rcases h with h | h
      · simp [isNewUserFor] at h
      · have := ih h
        simp only [lifecycleCount]
        omega
    | startSkeletonTracking id =>
      rcases h with h | h
      · simp [isNewUserFor] at h
      · simpa [lifecycleCount] using ih h
    | stopSkeletonTracking id =>
      rcases h with h | h
      · simp [isNewUserFor] at h
      · simpa [lifecycleCount] using ih h
    | updateUserData r d =>
      rcases h with h | h
      · simp [isNewUserFor] at h
      · simpa [lifecycleCount] using ih h

theorem lifecycleCount_pos_of_lost (k : UserId) (log : List Action)
    (h : log.any (isLostUserFor k) = true) : 1 ≤ lifecycleCount k log := by
  induction log with
  | nil => simp at h
  | cons a rest ih =>
    rw [List.any_cons, Bool.or_eq_true] at h
    cases a with
    | lostUser id r u m =>
      rcases h with h | h
      · have : id = k := by simpa [isLostUserFor] using h
        simp [lifecycleCount, this]
      · have := ih h
        simp only [lifecycleCount]
        omega
    | newUser id r u m =>
      rcases h with h | h
      · simp [isLostUserFor] at h
      · have := ih h
        simp only [lifecycleCount]
        omega
    | startSkeletonTracking id =>
      rcases h with h | h
      · simp [isLostUserFor] at h
      · simpa [lifecycleCount] using ih h
    | stopSkeletonTracking id =>
      rcases h with h | h
      · simp [isLostUserFor] at h
      · simpa [lifecycleCount] using ih h
    | updateUserData r d =>
      rcases h with h | h
      · simp [isLostUserFor] at h
      · simpa [lifecycleCount] using ih h

theorem lifecycleCount_two_of_both (k : UserId) (log : List Action)
    (hn : log.any (isNewUserFor k) = true) (hl : log.any (isLostUserFor k) = true) :
    2 ≤ lifecycleCount k log := by
  induction log with
  | nil => simp at hn
  | cons a rest ih =>
    rw [List.any_cons, Bool.or_eq_true] at hn hl
    cases a with
    | newUser id r u m =>
      have hl2 : rest.any (isLostUserFor k) = true := by
        rcases hl with h | h
        · simp [isLostUserFor] at h
        · exact h
      have h1 := lifecycleCount_pos_of_lost k rest hl2
      rcases hn with h | h
      · have : id = k := by simpa [isNewUserFor] using h
        simp only [lifecycleCount, this, if_true]
        omega
      · have := ih h hl2
        simp only [lifecycleCount]
        omega
    | lostUser id r u m =>
      have hn2 : rest.any (isNewUserFor k) = true := by
        rcases hn with h | h
        · simp [isNewUserFor] at h
        · exact h
      have h1 := lifecycleCount_pos_of_new k rest hn2
      rcases hl with h | h
      · have : id = k := by simpa [isLostUserFor] using h
        simp only [lifecycleCount, this, if_true]
        omega
      · have := ih hn2 h
        simp only [lifecycleCount]
        omega
    | startSkeletonTracking id =>
      have hn2 : rest.any (isNewUserFor k) = true := by
        rcases hn with h | h
        · simp [isNewUserFor] at h
        · exact h
      have hl2 : rest.any (isLostUserFor k) = true := by
        rcases hl with h | h
        · simp [isLostUserFor] at h
        · exact h
      simpa [lifecycleCount] using ih hn2 hl2
    | stopSkeletonTracking id =>
      have hn2 : rest.any (isNewUserFor k) = true := by
        rcases hn with h | h
        · simp [isNewUserFor] at h
        · exact h
      have hl2 : rest.any (isLostUserFor k) = true := by
        rcases hl with h | h
        · simp [isLostUserFor] at h
        · exact h
      simpa [lifecycleCount] using ih hn2 hl2
    | updateUserData r d =>
      have hn2 : rest.any (isNewUserFor k) = true := by
        rcases hn with h | h
        · simp [isNewUserFor] at h
        · exact h
      have hl2 : rest.any (isLostUserFor k) = true := by
        rcases hl with h | h
        · simp [isLostUserFor] at h
        · exact h
      simpa [lifecycleCount] using ih hn2 hl2

theorem lifecycleCount_onUpdate (env : Collab) (s : UserTracker) (k : UserId) :
    lifecycleCount k (onUpdate env s).2 ≤ List.count k (s.users_data.map (fun d => d.id)) := by
  rw [(onUpdate_log env s).1]
  exact lifecycleCount_runBatch env k s.users_data _

/-! ## Claims about the joint model and the pose update -/

/-- C10: `Joint::updateJointData` sets the position `(x, y, -z)` and the orientation
`(-qx, -qy, qz, qw)` of the raw joint; `User::updateUserData` does so for the joint of
every joint type the record holds and stores the center of mass as the raw value
with `z` negated; the position flip applied twice gives back the original point. -/
theorem axis_flip_convention (j : Joint) (raw : SkeletonJoint) (env : Collab) (u : User)
    (data : UserData) (t : JointType) (p : ofVec3f) :
    (j.updateJointData raw).globalPosition
        = ⟨raw.position.x, raw.position.y, -raw.position.z⟩
      ∧ (j.updateJointData raw).globalOrientation
        = ⟨-raw.orientation.x, -raw.orientation.y, raw.orientation.z, raw.orientation.w⟩
      ∧ (t.toNat < u.joints.length →
          (u.updateUserData env data).joints.getD t.toNat Joint.default
            = (u.joints.getD t.toNat Joint.default).updateJointData
                (data.skeleton.getJoint t.toNat))
      ∧ (u.updateUserData env data).center_of_mass
        = ⟨data.centerOfMass.x, data.centerOfMass.y, -data.centerOfMass.z⟩
      ∧ (u.updateUserData env data).center_of_mass
        = flipZ ⟨data.centerOfMass.x, data.centerOfMass.y, data.centerOfMass.z⟩
      ∧ flipZ (flipZ p) = p := by
  refine ⟨rfl, rfl, ?_, center_of_mass_updateUserData env u data, ?_, flipZ_flipZ p⟩
  · intro h
    rw [joints_updateUserData, getD_updateJoints _ _ _ h]
  · rw [center_of_mass_updateUserData]
    rfl

/-- Witness of C10: a freshly built record, its torso joint and a sample detection. -/
theorem axis_flip_convention_witness :
    JointType.JOINT_TORSO.toNat < sampleEnv.freshUser.joints.length
      ∧ (sampleEnv.freshUser.updateUserData sampleEnv (sampleMove 1 1)).joints.getD
            JointType.JOINT_TORSO.toNat Joint.default
          = (sampleEnv.freshUser.joints.getD JointType.JOINT_TORSO.toNat
              Joint.default).updateJointData
              ((sampleMove 1 1).skeleton.getJoint JointType.JOINT_TORSO.toNat) :=
  ⟨by decide,
    (axis_flip_convention Joint.default SkeletonJoint.zero sampleEnv sampleEnv.freshUser
      (sampleMove 1 1) JointType.JOINT_TORSO ⟨0, 0, 0⟩).2.2.1 (by decide)⟩

/-- C9: under constant-velocity input with displacement `d`, the activity after the
updates is the `n`-fold smoothing step, its error is `0.9 ^ n` times the initial
error, the error never grows, and it tends to `0` (exact rational arithmetic). -/
theorem activity_converges (env : Collab) (d : ℚ) (u : User) (ds : List UserData)
    (h : constantVelocity env d u ds) :
    (ds.foldl (fun acc x => acc.updateUserData env x) u).activity
        = Nat.iterate (activityStep d) ds.length u.activity
      ∧ |(ds.foldl (fun acc x => acc.updateUserData env x) u).activity - d|
        = (9 / 10) ^ ds.length * |u.activity - d|
      ∧ |(ds.foldl (fun acc x => acc.updateUserData env x) u).activity - d| ≤ |u.activity - d|
      ∧ (∀ n : Nat, |Nat.iterate (activityStep d) (n + 1) u.activity - d|
          ≤ |Nat.iterate (activityStep d) n u.activity - d|)
      ∧ Filter.Tendsto (fun n : Nat => |Nat.iterate (activityStep d) n u.activity - d|)
          Filter.atTop (nhds 0) := by
  have hfold := activity_foldl env d ds u h
  have hpow : ∀ n : Nat, ((9 : ℚ) / 10) ^ n ≤ 1 := fun n =>
    pow_le_one₀ (by norm_num) (by norm_num)
  refine ⟨hfold, ?_, ?_, ?_, ?_⟩
  · rw [hfold, activityStep_iterate_abs]
  · rw [hfold, activityStep_iterate_abs]
    calc (9 / 10 : ℚ) ^ ds.length * |u.activity - d| ≤ 1 * |u.activity - d| :=
          mul_le_mul_of_nonneg_right (hpow _) (abs_nonneg _)
      _ = |u.activity - d| := one_mul _
  · intro n
    rw [activityStep_iterate_abs, activityStep_iterate_abs, pow_succ, mul_assoc]
    apply mul_le_mul_of_nonneg_left _ (by positivity)
    calc (9 / 10 : ℚ) * |u.activity - d| ≤ 1 * |u.activity - d| :=
          mul_le_mul_of_nonneg_right (by norm_num) (abs_nonneg _)
      _ = |u.activity - d| := one_mul _
  · have h1 : Filter.Tendsto (fun n : ℕ => ((9 : ℚ) / 10) ^ n) Filter.atTop (nhds 0) :=
      tendsto_pow_atTop_nhds_zero_of_lt_one (by norm_num) (by norm_num)
    have h2 := h1.mul_const |u.activity - d|
    rw [zero_mul] at h2
    refine h2.congr (fun n => ?_)
    rw [activityStep_iterate_abs]

/-- Witness of C9: a freshly built record whose torso moves from 0 to 1 to 2 along x. -/
theorem activity_converges_witness :
    constantVelocity sampleEnv 1 sampleEnv.freshUser [sampleMove 1 1, sampleMove 1 2]
      ∧ |([sampleMove 1 1, sampleMove 1 2].foldl
            (fun acc x => acc.updateUserData sampleEnv x) sampleEnv.freshUser).activity - 1|
          = (9 / 10) ^ 2 * |sampleEnv.freshUser.activity - 1| := by
  have h0 : JointType.JOINT_TORSO.toNat < sampleEnv.freshUser.joints.length := by decide
  have h1 : JointType.JOINT_TORSO.toNat
      < (sampleEnv.freshUser.updateUserData sampleEnv (sampleMove 1 1)).joints.length := by
    rw [joints_updateUserData, length_updateJoints]; exact h0
  have hc : constantVelocity sampleEnv 1 sampleEnv.freshUser [sampleMove 1 1, sampleMove 1 2] := by
    simp only [constantVelocity, torso_updateUserData _ _ _ h0, torso_updateUserData _ _ _ h1]
    norm_num [sampleEnv, sampleMove, Skeleton.getJoint, JointType.toNat, flipZ, User.blank,
      User.buildSkeleton]
  exact ⟨hc, (activity_converges sampleEnv 1 sampleEnv.freshUser
    [sampleMove 1 1, sampleMove 1 2] hc).2.1⟩

/-- C8: after `User::buildSkeleton` on a record whose joints are unparented, there
are exactly 15 joints, one per joint type; the torso has no parent; every other joint
type has the one parent the source binds to it; from every joint the torso is reached
by following parents at most three times; and no joint is its own ancestor. -/
theorem skeleton_is_tree (u : User) (h : ∀ j ∈ u.joints, j.parent = none) :
    u.buildSkeleton.joints.length = NITE_JOINT_COUNT
      ∧ Fintype.card JointType = NITE_JOINT_COUNT
      ∧ Function.Injective JointType.toNat
      ∧ (∀ t : JointType, t.toNat < NITE_JOINT_COUNT)
      ∧ u.buildSkeleton.parentOf .JOINT_TORSO = none
      ∧ u.buildSkeleton.parentOf .JOINT_NECK = some .JOINT_TORSO
      ∧ u.buildSkeleton.parentOf .JOINT_LEFT_SHOULDER = some .JOINT_TORSO
      ∧ u.buildSkeleton.parentOf .JOINT_RIGHT_SHOULDER = some .JOINT_TORSO
      ∧ u.buildSkeleton.parentOf .JOINT_LEFT_HIP = some .JOINT_TORSO
      ∧ u.buildSkeleton.parentOf .JOINT_RIGHT_HIP = some .JOINT_TORSO
      ∧ u.buildSkeleton.parentOf .JOINT_HEAD = some .JOINT_NECK
      ∧ u.buildSkeleton.parentOf .JOINT_LEFT_ELBOW = some .JOINT_LEFT_SHOULDER
      ∧ u.buildSkeleton.parentOf .JOINT_LEFT_HAND = some .JOINT_LEFT_ELBOW
      ∧ u.buildSkeleton.parentOf .JOINT_RIGHT_ELBOW = some .JOINT_RIGHT_SHOULDER
      ∧ u.buildSkeleton.parentOf .JOINT_RIGHT_HAND = some .JOINT_RIGHT_ELBOW
      ∧ u.buildSkeleton.parentOf .JOINT_LEFT_KNEE = some .JOINT_LEFT_HIP
      ∧ u.buildSkeleton.parentOf .JOINT_LEFT_FOOT = some .JOINT_LEFT_KNEE
      ∧ u.buildSkeleton.parentOf .JOINT_RIGHT_KNEE = some .JOINT_RIGHT_HIP
      ∧ u.buildSkeleton.parentOf .JOINT_RIGHT_FOOT = some .JOINT_RIGHT_KNEE
      ∧ (∀ t : JointType, ∃ n, n ≤ 3
          ∧ ancestor u.buildSkeleton.parentOf n t = some JointType.JOINT_TORSO)
      ∧ (∀ (t : JointType) (n : Nat), 0 < n → ancestor u.buildSkeleton.parentOf n t ≠ some t) := by
  have hp := parentOf_buildSkeleton u h
  have hlen : u.buildSkeleton.joints.length = NITE_JOINT_COUNT := by
    unfold User.buildSkeleton
    simp only [length_BIND, length_resizeJoints]
  have hinj : Function.Injective JointType.toNat := by
    intro a b hab
    cases a <;> cases b <;> first | rfl | (exact absurd hab (by decide))
  rw [hp]
  exact ⟨hlen, by decide, hinj, toNat_lt, rfl, rfl, rfl, rfl, rfl, rfl, rfl, rfl, rfl, rfl, rfl,
    rfl, rfl, rfl, rfl, boundParent_reaches_torso, boundParent_acyclic⟩

/-- Witness of C8: the blank record, which has no joints before `buildSkeleton`. -/
theorem skeleton_is_tree_witness :
    (∀ j ∈ User.blank.joints, j.parent = none)
      ∧ User.blank.buildSkeleton.joints.length = NITE_JOINT_COUNT
      ∧ User.blank.buildSkeleton.parentOf .JOINT_TORSO = none :=
  ⟨by simp [User.blank],
    (skeleton_is_tree User.blank (by simp [User.blank])).1,
    (skeleton_is_tree User.blank (by simp [User.blank])).2.2.2.2.1⟩

/-! ## Claims about the tracker tick -/

/-- C6: a detection that is not flagged new and whose identity is not in the live
mapping is dropped: the loop body returns the tracker unchanged (mapping, records,
`users_arr`) with an empty trace (no event, no start or stop request, no pose update);
a tick whose batch is this one detection only clears `users_arr` and the batch. -/
theorem unknown_detection_dropped (env : Collab) (s : UserTracker) (user : UserData)
    (hnew : user.isNew = false) (hr : mapFind user.id s.users = none) :
    onUpdateBody env s user = (s, [])
      ∧ onUpdate env { s with users_data := [user] }
        = ({ s with users_arr := [], users_data := [] }, []) := by
  refine ⟨onUpdateBody_drop env s user hnew hr, ?_⟩
  have hd := onUpdateBody_drop env { s with users_data := [user], users_arr := [] } user hnew hr
  rw [onUpdate_eq_runBatch env _ (by simp)]
  simp only [runBatch_cons, runBatch_nil, hd]
  simp

/-- Witness of C6: an untracked identity 7 reported as visible, neither new nor lost. -/
theorem unknown_detection_dropped_witness :
    (sampleData 7 false false true).isNew = false
      ∧ mapFind (sampleData 7 false false true).id trackedOne.users = none
      ∧ onUpdateBody sampleEnv trackedOne (sampleData 7 false false true) = (trackedOne, []) :=
  ⟨rfl, by decide,
    (unknown_detection_dropped sampleEnv trackedOne (sampleData 7 false false true) rfl
      (by decide)).1⟩

/-- C5: for a detection flagged new, whatever its other flags, the loop body creates a
record, maps the identity to it, requests `startSkeletonTracking`, updates the record
from the detection and then notifies `newUser` once with the updated record; in
Scenario A the mapping afterwards contains identity 1 and the record carried by
`newUser` has a status string containing "Stopped tracking". -/
theorem new_detection_creates_record (env : Collab) (s : UserTracker) (user : UserData)
    (hnew : user.isNew = true) :
    (onUpdateBody env s user).2
        = [Action.startSkeletonTracking user.id,
           Action.updateUserData s.heap.length user,
           Action.newUser user.id s.heap.length
             (some (env.freshUser.updateUserData env user))
             (mapAssign user.id s.heap.length s.users)]
      ∧ (onUpdateBody env s user).1.users = mapAssign user.id s.heap.length s.users
      ∧ mapFind user.id (onUpdateBody env s user).1.users = some s.heap.length
      ∧ (onUpdateBody env s user).1.heap = s.heap ++ [env.freshUser.updateUserData env user]
      ∧ (onUpdateBody env s user).1.heap[s.heap.length]?
          = some (env.freshUser.updateUserData env user)
      ∧ (onUpdateBody env s user).1.users_arr = s.users_arr ++ [s.heap.length]
      ∧ lifecycleCount user.id (onUpdateBody env s user).2 = 1
      ∧ (user.id = 1 → user.isVisible = true → user.skeleton.state = .SKELETON_NONE →
          s.users = [] → s.users_data = [user] →
          mapFind 1 (onUpdate env s).1.users = some s.heap.length
            ∧ (onUpdate env s).2
                = [Action.startSkeletonTracking 1,
                   Action.updateUserData s.heap.length user,
                   Action.newUser 1 s.heap.length
                     (some (env.freshUser.updateUserData env user)) [(1, s.heap.length)]]
            ∧ (env.freshUser.updateUserData env user).status_string
                = "[1]\nVisible\n" ++ "Stopped tracking" ++ ".") := by
  have hb := onUpdateBody_new env s user hnew
  refine ⟨by rw [hb], by rw [hb]; rfl, ?_, by rw [hb]; rfl, ?_, by rw [hb]; rfl, ?_, ?_⟩
  · rw [hb]; exact mapFind_mapAssign_self _ _ _
  · rw [hb]; simp [afterNew]
  · rw [hb]; simp [lifecycleCount]
  · intro hid hvis hst husers hdata
    obtain ⟨hl, hu⟩ := onUpdate_singleton env s user hdata
    rw [hl, hu, onUpdateBody_new env { s with users_arr := [] } user hnew]
    refine ⟨?_, ?_, ?_⟩
    · simp [afterNew, husers, hid, mapAssign, mapFind]
    · simp [husers, hid, mapAssign]
    · rw [status_string_updateUserData]
      simp only [statusString, hid, hvis, hst, stateMessage, if_true]
      decide

/-- Witness of C5: Scenario A on the empty sample tracker. -/
theorem new_detection_creates_record_witness :
    (sampleData 1 true false true).isNew = true
      ∧ mapFind 1 (onUpdate sampleEnv
          { sampleTracker with users_data := [sampleData 1 true false true] }).1.users
          = some 0
      ∧ (sampleEnv.freshUser.updateUserData sampleEnv (sampleData 1 true false true)).status_string
          = "[1]\nVisible\n" ++ "Stopped tracking" ++ "." :=
  ⟨rfl,
    ((new_detection_creates_record sampleEnv
      { sampleTracker with users_data := [sampleData 1 true false true] }
      (sampleData 1 true false true) rfl).2.2.2.2.2.2.2 rfl rfl rfl rfl rfl).1,
    ((new_detection_creates_record sampleEnv
      { sampleTracker with users_data := [sampleData 1 true false true] }
      (sampleData 1 true false true) rfl).2.2.2.2.2.2.2 rfl rfl rfl rfl rfl).2.2⟩

/-- C4: a detection that is not flagged new and whose identity is mapped to record `r`
is treated as lost exactly when it is flagged lost, or not visible while
`bTrackOutOfFrame` is off.  Then the body notifies `lostUser` once with `r`, requests
`stopSkeletonTracking`, erases the identity and leaves records and `users_arr` alone;
otherwise the mapping is unchanged, the identity stays mapped to `r`, and the only
action is the pose update of `r`. -/
theorem lost_detection_handling (env : Collab) (s : UserTracker) (user : UserData)
    (r : UserRef) (hnew : user.isNew = false) (hr : mapFind user.id s.users = some r) :
    ((∃ ref record m, Action.lostUser user.id ref record m ∈ (onUpdateBody env s user).2)
        ↔ (user.isLost = true ∨ (user.isVisible = false ∧ s.bTrackOutOfFrame = false)))
      ∧ ((user.isLost = true ∨ (user.isVisible = false ∧ s.bTrackOutOfFrame = false)) →
          onUpdateBody env s user
              = ({ s with users := mapErase user.id s.users },
                  [Action.lostUser user.id r s.heap[r]? s.users,
                   Action.stopSkeletonTracking user.id])
            ∧ mapFind user.id (onUpdateBody env s user).1.users = none
            ∧ (onUpdateBody env s user).1.heap = s.heap
            ∧ (onUpdateBody env s user).1.users_arr = s.users_arr
            ∧ lifecycleCount user.id (onUpdateBody env s user).2 = 1)
      ∧ (¬ (user.isLost = true ∨ (user.isVisible = false ∧ s.bTrackOutOfFrame = false)) →
          (onUpdateBody env s user).1.users = s.users
            ∧ mapFind user.id (onUpdateBody env s user).1.users = some r
            ∧ (onUpdateBody env s user).2 = [Action.updateUserData r user]
            ∧ (onUpdateBody env s user).1.users_arr = s.users_arr ++ [r]) := by
  have hcond : (user.isLost = true ∨ (user.isVisible = false ∧ s.bTrackOutOfFrame = false))
      ↔ (user.isLost || (!user.isVisible && !s.bTrackOutOfFrame)) = true := by
    cases user.isLost <;> cases user.isVisible <;> cases s.bTrackOutOfFrame <;> decide
  refine ⟨?_, ?_, ?_⟩
  · constructor
    · rintro ⟨ref, record, m, hmem⟩
      exact hcond.2 (lostUser_mem_onUpdateBody env s user _ ref record m hmem).2.2.1
    · intro hl
      rw [onUpdateBody_lost env s user r hnew hr (hcond.1 hl)]
      exact ⟨r, s.heap[r]?, s.users, List.mem_cons_self _ _⟩
  · intro hl
    have hb := onUpdateBody_lost env s user r hnew hr (hcond.1 hl)
    refine ⟨hb, ?_, by rw [hb], by rw [hb], ?_⟩
    · rw [hb]; exact mapFind_mapErase_self _ _
    · rw [hb]; simp [lifecycleCount]
  · intro hl
    have hf : (user.isLost || (!user.isVisible && !s.bTrackOutOfFrame)) = false := by
      cases hc : (user.isLost || (!user.isVisible && !s.bTrackOutOfFrame))
      · rfl
      · exact absurd (hcond.2 hc) hl
    have hb := onUpdateBody_keep env s user r hnew hr hf
    refine ⟨by rw [hb], by rw [hb]; exact hr, by rw [hb], by rw [hb]⟩

/-- Witness of C4: Scenario C, tracked identity 1 reported not visible with
out-of-frame tracking disabled. -/
theorem lost_detection_handling_witness :
    (sampleData 1 false false false).isNew = false
      ∧ mapFind (sampleData 1 false false false).id trackedOne.users = some 0
      ∧ mapFind (sampleData 1 false false false).id
          (onUpdateBody sampleEnv trackedOne (sampleData 1 false false false)).1.users = none :=
  ⟨rfl, by decide,
    ((lost_detection_handling sampleEnv trackedOne (sampleData 1 false false false) 0 rfl
      (by decide)).2.1 (Or.inr ⟨rfl, rfl⟩)).2.1⟩

/-- C7: `onNewFrame` appends the detections of a frame behind those already pending, so two
frames before a tick leave both in the list, those of the first frame first; a tick processes
the pending list from first to last (its trace and resulting mapping and records are
those of `runBatch` on the whole list) and leaves the list empty; a tick that follows
immediately, also after a failed frame read, processes nothing and changes nothing. -/
theorem detections_processed_once (env env2 : Collab) (s : UserTracker)
    (f1 f2 : List UserData) :
    onNewFrame (onNewFrame s (some f1)) (some f2)
        = { s with users_data := s.users_data ++ f1 ++ f2 }
      ∧ (onUpdate env s).2 = (runBatch env { s with users_arr := [] } s.users_data).2
      ∧ (onUpdate env s).1.users
          = (runBatch env { s with users_arr := [] } s.users_data).1.users
      ∧ (onUpdate env s).1.heap
          = (runBatch env { s with users_arr := [] } s.users_data).1.heap
      ∧ (onUpdate env (onNewFrame (onNewFrame s (some f1)) (some f2))).2
          = (runBatch env { s with users_data := s.users_data ++ f1 ++ f2, users_arr := [] }
              (s.users_data ++ f1 ++ f2)).2
      ∧ (onUpdate env s).1.users_data = []
      ∧ onUpdate env2 (onUpdate env s).1 = ((onUpdate env s).1, [])
      ∧ onUpdate env2 (onNewFrame (onUpdate env s).1 none) = ((onUpdate env s).1, []) := by
  have h12 : onNewFrame (onNewFrame s (some f1)) (some f2)
      = { s with users_data := s.users_data ++ f1 ++ f2 } := by
    have h2 : (onNewFrame (onNewFrame s (some f1)) (some f2)).users_data
        = s.users_data ++ f1 ++ f2 := by
      rw [onNewFrame_users_data, onNewFrame_users_data]
    have hx : onNewFrame (onNewFrame s (some f1)) (some f2)
        = { s with users_data := (onNewFrame (onNewFrame s (some f1)) (some f2)).users_data } := rfl
    rw [hx, h2]
  have hsecond : onUpdate env2 (onUpdate env s).1 = ((onUpdate env s).1, []) :=
    onUpdate_of_empty env2 _ (onUpdate_users_data env s)
  refine ⟨h12, (onUpdate_log env s).1, (onUpdate_log env s).2.1, (onUpdate_log env s).2.2, ?_,
    onUpdate_users_data env s, hsecond, hsecond⟩
  rw [h12]
  exact (onUpdate_log env _).1

/-! ## Claims the source does not satisfy as stated -/

/-- Counterexample to C1 as stated: when identity 1 is reported new and then lost in
one drained batch, the tick emits both `newUser` and `lostUser` for identity 1. -/
theorem one_event_per_tick_counterexample :
    (onUpdate sampleEnv newThenLost).2.any (isNewUserFor 1) = true
      ∧ (onUpdate sampleEnv newThenLost).2.any (isLostUserFor 1) = true
      ∧ lifecycleCount 1 (onUpdate sampleEnv newThenLost).2 = 2 := by
  decide

/-- C1 (amended): a tick emits for an identity at most as many lifecycle events as the
drained batch holds detections of that identity, each detection causing at most one;
when no identity occurs twice in the batch, every identity gets at most one lifecycle
event in the tick, so never both `newUser` and `lostUser`. -/
theorem one_event_per_detection (env : Collab) (s : UserTracker) (k : UserId) :
    lifecycleCount k (onUpdate env s).2 ≤ List.count k (s.users_data.map (fun d => d.id))
      ∧ (∀ (s1 : UserTracker) (user : UserData),
          lifecycleCount k (onUpdateBody env s1 user).2 ≤ 1
            ∧ (user.id ≠ k → lifecycleCount k (onUpdateBody env s1 user).2 = 0))
      ∧ ((s.users_data.map (fun d => d.id)).Nodup →
          lifecycleCount k (onUpdate env s).2 ≤ 1
            ∧ ¬ ((onUpdate env s).2.any (isNewUserFor k) = true
                  ∧ (onUpdate env s).2.any (isLostUserFor k) = true)) := by
  have hcount := lifecycleCount_onUpdate env s k
  refine ⟨hcount, ?_, ?_⟩
  · intro s1 user
    have h := lifecycleCount_onUpdateBody env s1 user k
    constructor
    · by_cases hk : user.id = k
      · simpa [hk] using h
      · simp only [hk, if_false] at h
        omega
    · intro hk
      simp only [hk, if_false] at h
      omega
  · intro hnd
    have h1 : lifecycleCount k (onUpdate env s).2 ≤ 1 :=
      le_trans hcount (List.nodup_iff_count_le_one.1 hnd k)
    refine ⟨h1, ?_⟩
    rintro ⟨hn, hl⟩
    have := lifecycleCount_two_of_both k _ hn hl
    omega

/-- Witness of C1 (amended): a batch with the distinct identities 2 (new) and 1 (lost). -/
theorem one_event_per_detection_witness :
    (distinctBatch.users_data.map (fun d => d.id)).Nodup
      ∧ lifecycleCount 1 (onUpdate sampleEnv distinctBatch).2 ≤ 1 :=
  ⟨by decide, ((one_event_per_detection sampleEnv distinctBatch 1).2.2 (by decide)).1⟩

/-- Counterexample to C2 as stated: identity 1 is mapped to record 0; after a detection
for identity 1 flagged new it is mapped to record 1, not to the record mapped before. -/
theorem new_detection_keeps_record_counterexample :
    (sampleData 1 true false true).isNew = true
      ∧ mapFind 1 trackedOne.users = some 0
      ∧ mapFind 1 (onUpdateBody sampleEnv trackedOne (sampleData 1 true false true)).1.users
          = some 1
      ∧ mapFind 1 (onUpdateBody sampleEnv trackedOne (sampleData 1 true false true)).1.users
          ≠ mapFind 1 trackedOne.users := by
  decide

/-- C2 (amended): when identity `k` is already mapped to record `r`, a detection for `k`
flagged new leaves exactly one entry for `k` in the mapping, and that entry is a newly
created record updated from the detection, not `r`; the record `r` itself is left as
it was, and the entries of the other identities are unchanged. -/
theorem new_detection_replaces_record (env : Collab) (s : UserTracker) (user : UserData)
    (r : UserRef) (hnew : user.isNew = true) (hr : mapFind user.id s.users = some r)
    (hord : mapOrdered s.users) (hvalid : r < s.heap.length) :
    mapCount user.id (onUpdateBody env s user).1.users = 1
      ∧ mapFind user.id (onUpdateBody env s user).1.users = some s.heap.length
      ∧ mapFind user.id (onUpdateBody env s user).1.users ≠ mapFind user.id s.users
      ∧ (onUpdateBody env s user).1.heap[s.heap.length]?
          = some (env.freshUser.updateUserData env user)
      ∧ (onUpdateBody env s user).1.heap[r]? = s.heap[r]?
      ∧ (∀ j, j ≠ user.id →
          mapFind j (onUpdateBody env s user).1.users = mapFind j s.users)
      ∧ mapOrdered (onUpdateBody env s user).1.users := by
  have hb := onUpdateBody_new env s user hnew
  rw [hb]
  simp only [afterNew]
  refine ⟨mapCount_mapAssign _ _ _ hord, mapFind_mapAssign_self _ _ _, ?_, by simp, ?_,
    fun j hj => mapFind_mapAssign_other _ _ _ _ hj, mapOrdered_mapAssign _ _ _ hord⟩
  · rw [mapFind_mapAssign_self, hr]
    intro h
    injection h with h
    exact Nat.ne_of_gt hvalid h
  · rw [List.getElem?_append_left hvalid]

/-- Witness of C2 (amended): identity 1, mapped to record 0, is reported new again. -/
theorem new_detection_replaces_record_witness :
    (sampleData 1 true false true).isNew = true
      ∧ mapFind (sampleData 1 true false true).id trackedOne.users = some 0
      ∧ mapOrdered trackedOne.users
      ∧ 0 < trackedOne.heap.length
      ∧ mapCount (sampleData 1 true false true).id
          (onUpdateBody sampleEnv trackedOne (sampleData 1 true false true)).1.users = 1 :=
  ⟨rfl, by decide, by simp [mapOrdered, trackedOne], by decide,
    (new_detection_replaces_record sampleEnv trackedOne (sampleData 1 true false true) 0 rfl
      (by decide) (by simp [mapOrdered, trackedOne]) (by decide)).1⟩

/-- Counterexample to C3 as stated: identity 1 is reported lost and, later in the same
batch, new.  The tick first emits `lostUser` for identity 1, later performs a pose update
for identity 1, and at the end identity 1 is in the live mapping. -/
theorem lost_identity_absent_counterexample :
    ((onUpdate sampleEnv lostThenNew).2.take 1).any (isLostUserFor 1) = true
      ∧ ((onUpdate sampleEnv lostThenNew).2.drop 1).any (isPoseUpdateFor 1) = true
      ∧ mapFind 1 (onUpdate sampleEnv lostThenNew).1.users = some 1 := by
  decide

/-- C3 (amended): when the detection `user` of a batch `pre ++ user :: post` makes the
tick emit `lostUser`, the event carries the record mapped to the identity and is
emitted while the identity is still mapped; the stop request and the removal follow,
after which the identity is absent and the record untouched; and provided no later
detection of the batch for that identity is flagged new, the identity is absent at
the end of the tick and the rest of the tick holds no pose update and no lifecycle
event for it. -/
theorem lost_event_precedes_removal (env : Collab) (s : UserTracker)
    (pre post : List UserData) (user : UserData) (ref : UserRef) (record : Option User)
    (m : UserMap) (hdata : s.users_data = pre ++ user :: post)
    (hev : Action.lostUser user.id ref record m
      ∈ (onUpdateBody env (runBatch env { s with users_arr := [] } pre).1 user).2) :
    (onUpdate env s).2
        = (runBatch env { s with users_arr := [] } pre).2
          ++ (onUpdateBody env (runBatch env { s with users_arr := [] } pre).1 user).2
          ++ (runBatch env
              (onUpdateBody env (runBatch env { s with users_arr := [] } pre).1 user).1 post).2
      ∧ (onUpdateBody env (runBatch env { s with users_arr := [] } pre).1 user).2
          = [Action.lostUser user.id ref record m, Action.stopSkeletonTracking user.id]
      ∧ m = (runBatch env { s with users_arr := [] } pre).1.users
      ∧ mapFind user.id m = some ref
      ∧ record = (runBatch env { s with users_arr := [] } pre).1.heap[ref]?
      ∧ (onUpdateBody env (runBatch env { s with users_arr := [] } pre).1 user).1.users
          = mapErase user.id m
      ∧ mapFind user.id
          (onUpdateBody env (runBatch env { s with users_arr := [] } pre).1 user).1.users = none
      ∧ (onUpdateBody env (runBatch env { s with users_arr := [] } pre).1 user).1.heap
          = (runBatch env { s with users_arr := [] } pre).1.heap
      ∧ ((∀ d ∈ post, d.id = user.id → d.isNew = false) →
          mapFind user.id (onUpdate env s).1.users = none
            ∧ (∀ a ∈ (runBatch env
                (onUpdateBody env (runBatch env { s with users_arr := [] } pre).1 user).1
                post).2, isPoseUpdateFor user.id a = false)
            ∧ lifecycleCount user.id (runBatch env
                (onUpdateBody env (runBatch env { s with users_arr := [] } pre).1 user).1
                post).2 = 0) := by
  obtain ⟨hnew, hr, hlost, _, hrec, hm⟩ :=
    lostUser_mem_onUpdateBody env _ user user.id ref record m hev
  have hb := onUpdateBody_lost env _ user ref hnew hr hlost
  obtain ⟨hl, hu, _⟩ := onUpdate_log env s
  have e := congrArg (runBatch env { s with users_arr := [] }) hdata
  have habsent : mapFind user.id
      (onUpdateBody env (runBatch env { s with users_arr := [] } pre).1 user).1.users = none := by
    rw [hb]; exact mapFind_mapErase_self _ _
  refine ⟨?_, ?_, hm, by rw [hm]; exact hr, hrec, ?_, habsent, by rw [hb], ?_⟩
  · rw [hl, e, runBatch_append, runBatch_cons]
    simp [List.append_assoc]
  · rw [hb, hrec, hm]
  · rw [hb, hm]
  · intro hpost
    obtain ⟨h1, h2, h3⟩ := runBatch_absent env user.id post _ habsent hpost
    refine ⟨?_, h2, h3⟩
    rw [hu, e, runBatch_append, runBatch_cons]
    exact h1

/-- Witness of C3 (amended): identity 1 is reported lost and then seen again, not new. -/
theorem lost_event_precedes_removal_witness :
    lostThenSeen.users_data = [] ++ sampleData 1 false true true :: [sampleData 1 false false true]
      ∧ Action.lostUser (sampleData 1 false true true).id 0 (some sampleEnv.freshUser) [(1, 0)]
          ∈ (onUpdateBody sampleEnv
              (runBatch sampleEnv { lostThenSeen with users_arr := [] } []).1
              (sampleData 1 false true true)).2
      ∧ (∀ d ∈ [sampleData 1 false false true],
          d.id = (sampleData 1 false true true).id → d.isNew = false)
      ∧ mapFind (sampleData 1 false true true).id (onUpdate sampleEnv lostThenSeen).1.users
          = none :=
  ⟨rfl, by decide, by decide,
    ((lost_event_precedes_removal sampleEnv lostThenSeen [] [sampleData 1 false false true]
      (sampleData 1 false true true) 0 (some sampleEnv.freshUser) [(1, 0)] rfl
      (by decide)).2.2.2.2.2.2.2.2 (by decide)).1⟩

end ofxNiTE2
